import Mathlib

/-!
# gosu: presentation layer of the drum mode

A shallow embedding of `bg.go` and `mode/drum/drawer.go`.

Conventions of the embedding.

* `float64` values are modelled by exact rationals (`ℚ`).  Infinities and NaN
  are outside the model, so statements about floating-point results carry the
  hypotheses (non-zero divisors) under which the Go computation involves no
  division by zero.  Where the rounding of `float64` decides a property, the
  operations are rounded with `round64`.
* `int64` values are modelled by `Int`; additions and subtractions on them go
  through `wrap64`, the two's-complement wrap-around of Go.
* Indexing a slice or an array out of range panics in Go; operations that can
  panic return an `Option`, with `none` for the panic.
* Sprites and the screen are not modelled; a `Draw` method is modelled by the
  list of draw calls it issues.
-/

namespace Gosu

/-! ## Geometry matrices (ebiten `GeoM`) -/

/-- An affine transform of the plane, `(x, y) ↦ (a*x + b*y + tx, c*x + d*y + ty)`,
as kept by ebiten's `GeoM`. -/
structure GeoM where
  a : ℚ := 1
  b : ℚ := 0
  c : ℚ := 0
  d : ℚ := 1
  tx : ℚ := 0
  ty : ℚ := 0
  deriving DecidableEq

namespace GeoM

/-- `GeoM.Scale`: the transform followed by a scaling by `(x, y)`. -/
def Scale (g : GeoM) (x y : ℚ) : GeoM :=
  { a := g.a * x, b := g.b * x, tx := g.tx * x,
    c := g.c * y, d := g.d * y, ty := g.ty * y }

/-- `GeoM.Translate`: the transform followed by a translation by `(tx, ty)`. -/
def Translate (g : GeoM) (tx ty : ℚ) : GeoM :=
  { g with tx := g.tx + tx, ty := g.ty + ty }

/-- The image of the point `(x, y)` under the transform. -/
def Apply (g : GeoM) (x y : ℚ) : ℚ × ℚ :=
  (g.a * x + g.b * y + g.tx, g.c * x + g.d * y + g.ty)

end GeoM

/-- The part of `ebiten.DrawImageOptions` that `BackgroundOp` fills in. -/
structure DrawImageOptions where
  GeoM : GeoM := {}
  deriving DecidableEq

/-- `image.Point`: a pair of integers. -/
structure Point where
  X : Int
  Y : Int
  deriving DecidableEq

/-! ## `bg.go` -/

/-- The local variable `ratio` of `BackgroundOp` (lines 13-22): `1`, unless the
screen is smaller than the picture on some axis, in which case it is the smaller
of the two quotients `rx`, `ry`. -/
def BackgroundOp.ratio (screen bg : Point) : ℚ :=
  let bx : ℚ := bg.X
  let by_ : ℚ := bg.Y
  let sx : ℚ := screen.X
  let sy : ℚ := screen.Y
  let rx := sx / bx
  let ry := sy / by_
  if rx < 1 ∨ ry < 1 then
    let min := rx
    let min := if min > ry then ry else min
    min
  else 1

/-- The local variables `x, y` of `BackgroundOp` (line 26): the size of the
picture after scaling, in exact arithmetic (`BackgroundOp.size64` has the
`float64` rounding of the products). -/
def BackgroundOp.size (screen bg : Point) : ℚ × ℚ :=
  ((bg.X : ℚ) * BackgroundOp.ratio screen bg, (bg.Y : ℚ) * BackgroundOp.ratio screen bg)

/-- `BackgroundOp` of `bg.go`: the draw options that fit the picture `bg` into
`screen`, in exact arithmetic (`BackgroundOp.translate64` has the `float64`
rounding of the translation).  The matrix is scaled only in the branch that
shrinks the picture, and then translated so that the picture is centred. -/
def BackgroundOp (screen bg : Point) : DrawImageOptions :=
  let op : DrawImageOptions := {}
  let bx : ℚ := bg.X
  let by_ : ℚ := bg.Y
  let sx : ℚ := screen.X
  let sy : ℚ := screen.Y
  let rx := sx / bx
  let ry := sy / by_
  let ratio := BackgroundOp.ratio screen bg
  let op : DrawImageOptions :=
    if rx < 1 ∨ ry < 1 then { op with GeoM := op.GeoM.Scale ratio ratio } else op
  let x := bx * ratio
  let y := by_ * ratio
  { op with GeoM := op.GeoM.Translate ((sx - x) / 2) ((sy - y) / 2) }

/-! ## Machine integers, conversions and `math.Remainder` -/

/-- Two's-complement wrap-around of a 64-bit signed integer. -/
def wrap64 (x : Int) : Int := (x + 2 ^ 63) % 2 ^ 64 - 2 ^ 63

/-- The Go conversions `int(x)` and `int64(x)` of a `float64`: the fraction is
discarded (truncation towards zero). -/
def floatToInt (x : ℚ) : Int := if 0 ≤ x then ⌊x⌋ else ⌈x⌉

/-- The integer nearest to `q`, a tie going to the even one. -/
def roundHalfEven (q : ℚ) : Int :=
  let f : Int := ⌊q⌋
  let r : ℚ := q - f
  if r < 1 / 2 then f
  else if 1 / 2 < r then f + 1
  else if f % 2 = 0 then f else f + 1

/-- `math.Remainder(x, y)`, the IEEE 754 remainder: `x - n*y` where `n` is the
integer nearest to `x/y` (ties to even). -/
def Remainder (x y : ℚ) : ℚ := x - (roundHalfEven (x / y) : ℚ) * y

/-- Evaluation of an index expression `a[i]` on an array of length `n`: the
position when `0 ≤ i < n`, and `none` (a panic) otherwise. -/
def arrayIndex (n : Nat) (i : Int) : Option (Fin n) :=
  if h : 0 ≤ i ∧ i.toNat < n then some ⟨i.toNat, h.2⟩ else none

/-- Evaluation of an index expression `s[i]` on a slice: the element when
`0 ≤ i < len(s)`, and `none` (a panic) otherwise. -/
def sliceIndex {α : Type} (s : List α) (i : Int) : Option α :=
  if 0 ≤ i then s[i.toNat]? else none

/-- A `draws.Sprite`; only its identity matters here. -/
structure Sprite where
  id : Nat
  deriving DecidableEq

/-- The declarations of package `drum` that `drawer.go` uses and that are
declared in other files: the function `ScaledBPM` and the four dancer modes.
They are parameters of the embedding. -/
structure Consts where
  ScaledBPM : ℚ → ℚ
  DancerIdle : Int
  DancerHigh : Int
  DancerYes : Int
  DancerNo : Int

/-- The four dancer modes index the arrays `LastFrameTimes` and `Sprites` (of
length 4) and are pairwise distinct. -/
def Consts.ValidModes (c : Consts) : Prop :=
  (0 ≤ c.DancerIdle ∧ c.DancerIdle < 4) ∧ (0 ≤ c.DancerHigh ∧ c.DancerHigh < 4) ∧
  (0 ≤ c.DancerYes ∧ c.DancerYes < 4) ∧ (0 ≤ c.DancerNo ∧ c.DancerNo < 4) ∧
  c.DancerIdle ≠ c.DancerHigh ∧ c.DancerIdle ≠ c.DancerYes ∧ c.DancerIdle ≠ c.DancerNo ∧
  c.DancerHigh ≠ c.DancerYes ∧ c.DancerHigh ≠ c.DancerNo ∧ c.DancerYes ≠ c.DancerNo

instance (c : Consts) : Decidable c.ValidModes := by
  unfold Consts.ValidModes; infer_instance

/-- An instance of the parameters for evaluating the embedding on concrete
inputs: `ScaledBPM` leaves the tempo as it is and the modes are numbered
`0, 1, 2, 3`. -/
def sampleConsts : Consts :=
  { ScaledBPM := fun bpm => bpm, DancerIdle := 0, DancerHigh := 1, DancerYes := 2, DancerNo := 3 }

/-! ## `NoteDarwer` (the overlay blinker) -/

/-- The fields of `NoteDarwer` that `Update` reads and writes. -/
structure NoteDarwer where
  Time : Int
  OverlayDuration : Int
  Overlay : Int
  LastOverlayChangeTime : Int

/-- `NoteDarwer.Update` (lines 170-177). -/
def NoteDarwer.Update (c : Consts) (d : NoteDarwer) (time : Int) (bpm : ℚ) : NoteDarwer :=
  let d := { d with Time := time }
  let d := { d with OverlayDuration := floatToInt (60000 / c.ScaledBPM bpm) }
  if wrap64 (d.Time - d.LastOverlayChangeTime) ≥ d.OverlayDuration then
    let d := { d with Overlay := (wrap64 (d.Overlay + 1)).tmod 2 }
    { d with LastOverlayChangeTime := d.Time }
  else d

/-- The index expression `[d.Overlay]` into the array `OverlaySprites[n.Size]`
(of length 2) that `NoteDarwer.Draw` evaluates at line 219. -/
def NoteDarwer.overlayIndex (d : NoteDarwer) : Option (Fin 2) :=
  arrayIndex 2 d.Overlay

/-- The state after a sequence of `Update` calls at the given clock times, with a
constant tempo. -/
def NoteDarwer.run (c : Consts) (bpm : ℚ) (d : NoteDarwer) (times : List Int) : NoteDarwer :=
  times.foldl (fun d time => d.Update c time bpm) d

/-! ## `KeyDrawer` (the key-press afterglow) -/

/-- The fields of `KeyDrawer` other than its sprites. -/
structure KeyDrawer where
  MaxCountdown : Int
  countdowns : Fin 4 → Int
  lastPressed : List Bool
  pressed : List Bool

/-- The second loop of `KeyDrawer.Update` (lines 243-248), from lane `k` on:
`rest` is what remains of `d.pressed`.  Reading `d.lastPressed[k]` panics when
`k` is out of range, and so does writing `d.countdowns[k]`. -/
def KeyDrawer.Update.loop (d : KeyDrawer) : Nat → List Bool → Option KeyDrawer
  | _, [] => some d
  | k, now :: rest =>
    match d.lastPressed[k]? with
    | none => none
    | some last =>
      if (!last && now) = true then
        if h : k < 4 then
          KeyDrawer.Update.loop
            { d with countdowns := Function.update d.countdowns ⟨k, h⟩ d.MaxCountdown }
            (k + 1) rest
        else none
      else KeyDrawer.Update.loop d (k + 1) rest

/-- `KeyDrawer.Update` (lines 235-249): every positive counter is decremented,
then the lanes with a rising edge are set to `MaxCountdown`. -/
def KeyDrawer.Update (d : KeyDrawer) (lastPressed pressed : List Bool) : Option KeyDrawer :=
  let d := { d with lastPressed := lastPressed }
  let d := { d with pressed := pressed }
  let countdowns : Fin 4 → Int := fun k =>
    if d.countdowns k > 0 then d.countdowns k - 1 else d.countdowns k
  let d := { d with countdowns := countdowns }
  KeyDrawer.Update.loop d 0 d.pressed

/-- What `KeyDrawer.Draw` draws: the field, or the key of a lane. -/
inductive KeyDraw where
  | Field
  | Key (k : Fin 4)
  deriving DecidableEq

/-- `KeyDrawer.Draw` (lines 250-257): the field, then the key of every lane whose
counter is positive, in lane order. -/
def KeyDrawer.Draw (d : KeyDrawer) : List KeyDraw :=
  KeyDraw.Field ::
    ((List.finRange 4).filter (fun k => decide (d.countdowns k > 0))).map KeyDraw.Key

/-- A rising edge on lane `k`: the loop of `Update` reaches lane `k`, which was
not pressed in the last frame and is pressed in this one. -/
def risingEdge (lastPressed pressed : List Bool) (k : Nat) : Bool :=
  match lastPressed[k]?, pressed[k]? with
  | some last, some now => !last && now
  | _, _ => false

/-- The state after the `Update` of frame `n`, the frames `0, 1, ..., n` having the
press vectors `frames 0, ..., frames n` (last frame's vector first). -/
def KeyDrawer.run (d : KeyDrawer) (frames : Nat → List Bool × List Bool) :
    Nat → Option KeyDrawer
  | 0 => d.Update (frames 0).1 (frames 0).2
  | n + 1 => (KeyDrawer.run d frames n).bind
      (fun d => d.Update (frames (n + 1)).1 (frames (n + 1)).2)

/-- The press vectors of a single tap on lane 0: pressed in frame 0, released in
frame 1, idle afterwards. -/
def tapFrames : Nat → List Bool × List Bool := fun i =>
  if i = 0 then ([false, false, false, false], [true, false, false, false])
  else if i = 1 then ([true, false, false, false], [false, false, false, false])
  else ([false, false, false, false], [false, false, false, false])

/-! ## `DancerDrawer` (the character mood cycler) -/

/-- The struct `DancerDrawer`. -/
structure DancerDrawer where
  Time : Int
  Duration : ℚ
  Mode : Int
  Frame : Int
  LastFrameTimes : Fin 4 → Int
  MissDanceEndTime : Int
  Sprites : Fin 4 → List Sprite

/-- The local variable `rate` of `DancerDrawer.Update` after lines 306-309. -/
def DancerDrawer.rate (td Duration : ℚ) : ℚ :=
  let rate := Remainder td Duration / Duration
  if rate < 0 then rate + 1 else rate

/-- The `switch` of `DancerDrawer.Update` (lines 272-298): the state after it and
the local variable `modeChange`. -/
def DancerDrawer.Update.switch (c : Consts) (d : DancerDrawer) (miss hit : Bool) (combo : Int)
    (highlight : Bool) : DancerDrawer × Bool :=
  if miss then
    let d := { d with MissDanceEndTime := wrap64 (d.Time + floatToInt (d.Duration * 4)) }
    if d.Mode ≠ c.DancerNo then ({ d with Mode := c.DancerNo }, true) else (d, false)
  else if combo ≥ 50 ∧ combo.tmod 50 < 5 then
    if d.Mode ≠ c.DancerYes then
      let d := { d with Mode := c.DancerYes }
      let d := { d with Duration := d.Duration * 2 }
      (d, true)
    else (d, false)
  else if hit ∨ d.Time ≥ d.MissDanceEndTime then
    if highlight then
      if d.Mode ≠ c.DancerHigh then ({ d with Mode := c.DancerHigh }, true) else (d, false)
    else
      if d.Mode ≠ c.DancerIdle then ({ d with Mode := c.DancerIdle }, true) else (d, false)
  else (d, false)

/-- `DancerDrawer.Update` (lines 269-312).  The index expressions
`d.LastFrameTimes[d.Mode]` and `d.Sprites[d.Mode]` panic when `d.Mode` is not an
index of the arrays. -/
def DancerDrawer.Update (c : Consts) (d : DancerDrawer) (time : Int) (bpm : ℚ)
    (miss hit : Bool) (combo : Int) (highlight : Bool) : Option DancerDrawer :=
  let d := { d with Time := time }
  let d := { d with Duration := 4 * 60000 / c.ScaledBPM bpm }
  let (d, modeChange) := DancerDrawer.Update.switch c d miss hit combo highlight
  match arrayIndex 4 d.Mode with
  | none => none
  | some m =>
    let d := if modeChange then
      { d with LastFrameTimes := Function.update d.LastFrameTimes m time } else d
    let td : ℚ := wrap64 (d.Time - d.LastFrameTimes m)
    let rate := DancerDrawer.rate td d.Duration
    let frames : ℚ := (d.Sprites m).length
    some { d with Frame := floatToInt (rate * frames) }

/-- `DancerDrawer.Draw` (lines 313-315): the sprite drawn, `none` when one of the
two index expressions panics. -/
def DancerDrawer.Draw (d : DancerDrawer) : Option Sprite :=
  match arrayIndex 4 d.Mode with
  | none => none
  | some m => sliceIndex (d.Sprites m) d.Frame

/-- A dancer in mode `0` with two sprites in every mode and all times zero, for
evaluating the embedding on concrete inputs. -/
def sampleDancer : DancerDrawer :=
  { Time := 0, Duration := 0, Mode := 0, Frame := 0, LastFrameTimes := fun _ => 0,
    MissDanceEndTime := 0, Sprites := fun _ => [⟨0⟩, ⟨1⟩] }

/-! ## `bg.go` with `float64` rounding -/

/-- The `float64` nearest to the number `q` (IEEE 754 binary64, round to nearest,
ties to even): 53 significant bits in the binade `2^e ≤ |q| < 2^(e+1)` of `q`,
and the spacing `2^-1074` of the subnormal numbers below `2^-1022`.  Overflow to
an infinity is not modelled. -/
def round64 (q : ℚ) : ℚ :=
  if q = 0 then 0
  else
    let e : Int := max (Int.log 2 |q|) (-1022)
    let ulp : ℚ := 2 ^ (e - 52)
    (roundHalfEven (q / ulp) : ℚ) * ulp

/-- The local variable `ratio` of `BackgroundOp` (lines 10-22) as `float64`
computes it: the conversions of the four integers and the two quotients are
rounded. -/
def BackgroundOp.ratio64 (screen bg : Point) : ℚ :=
  let bx := round64 bg.X
  let by_ := round64 bg.Y
  let sx := round64 screen.X
  let sy := round64 screen.Y
  let rx := round64 (sx / bx)
  let ry := round64 (sy / by_)
  if rx < 1 ∨ ry < 1 then
    let min := rx
    let min := if min > ry then ry else min
    min
  else 1

/-- The local variables `x, y` of `BackgroundOp` (line 26) as `float64` computes
them: the two products are rounded. -/
def BackgroundOp.size64 (screen bg : Point) : ℚ × ℚ :=
  (round64 (round64 bg.X * BackgroundOp.ratio64 screen bg),
   round64 (round64 bg.Y * BackgroundOp.ratio64 screen bg))

/-- The arguments `(sx-x)/2, (sy-y)/2` of `op.GeoM.Translate` (line 27) as
`float64` computes them: the differences and the halves are rounded. -/
def BackgroundOp.translate64 (screen bg : Point) : ℚ × ℚ :=
  (round64 (round64 (round64 screen.X - (BackgroundOp.size64 screen bg).1) / 2),
   round64 (round64 (round64 screen.Y - (BackgroundOp.size64 screen bg).2) / 2))

/-! ## Notes, bars and dots -/

/-- The struct `Bar`, declared in another file of package `drum`: the fields that
`drawer.go` reads. -/
structure Bar where
  Time : Int
  Speed : ℚ
  deriving DecidableEq

/-- The struct `Note`, declared in another file of package `drum`: the fields that
`drawer.go` reads, and the scroll speed that its method `Position` needs. -/
structure Note where
  Time : Int
  Duration : Int
  Size : Int
  Color : Int
  Marked : Bool
  Tick : Int
  HitTick : Int
  Speed : ℚ
  deriving DecidableEq

/-- The struct `Dot`, declared in another file of package `drum`.  The colour and
the scale with which a dot is drawn depend on `Marked` only. -/
structure Dot where
  Time : Int
  Speed : ℚ
  Marked : Int
  deriving DecidableEq

/-- The declarations of package `drum` that the `Draw` methods use and that are
declared in other files: the bounds of the visible range and the methods
`Position` of `Note` and of `Dot`.  They are parameters of the embedding. -/
structure DrawConsts where
  maxPosition : ℚ
  minPosition : ℚ
  NotePosition : Note → Int → ℚ
  DotPosition : Dot → Int → ℚ

/-- Modelled from the spec: the method `Note.Position`, which is not under `src/`.
The spec gives `position(scheduledTime, currentTime, speed) = speed *
(scheduledTime - currentTime)`; the difference is the `int64` subtraction, as in
`BarDrawer.Draw`. -/
def Note.specPosition (n : Note) (time : Int) : ℚ :=
  n.Speed * (wrap64 (n.Time - time) : ℚ)

/-- Modelled from the spec: the method `Dot.Position`, which is not under `src/`,
by the same formula as `Note.specPosition`. -/
def Dot.specPosition (n : Dot) (time : Int) : ℚ :=
  n.Speed * (wrap64 (n.Time - time) : ℚ)

/-- An instance of the parameters for evaluating the embedding on concrete
inputs: the visible range `[-200, 1200]` and the positions of the spec. -/
def sampleDrawConsts : DrawConsts :=
  { maxPosition := 1200, minPosition := -200,
    NotePosition := Note.specPosition, DotPosition := Dot.specPosition }

/-- The draw calls of a loop whose body can panic: those of the iterations in
order, `none` as soon as one iteration panics. -/
def sequenceDraws {α : Type} : List (Option (List α)) → Option (List α)
  | [] => some []
  | none :: _ => none
  | some xs :: rest =>
    match sequenceDraws rest with
    | none => none
    | some ys => some (xs ++ ys)

/-- The test with which the loops over dots and notes skip an element (lines 138
and 190): `pos > maxPosition || pos < minPosition`. -/
def culled (e : DrawConsts) (pos : ℚ) : Bool :=
  decide (pos > e.maxPosition ∨ pos < e.minPosition)

/-! ## `BarDrawer` -/

/-- The fields of `BarDrawer` other than its sprite. -/
structure BarDrawer where
  Time : Int
  Bars : List Bar

/-- `BarDrawer.Draw` (lines 44-53): the bars drawn, in the order of the draw
calls, each with the position its sprite is moved to. -/
def BarDrawer.Draw (e : DrawConsts) (d : BarDrawer) : List (Bar × ℚ) :=
  d.Bars.filterMap fun b =>
    let pos := b.Speed * (wrap64 (b.Time - d.Time) : ℚ)
    if pos ≤ e.maxPosition ∧ pos ≥ e.minPosition then some (b, pos) else none

/-! ## `ShakeDrawer` -/

/-- The fields of `ShakeDrawer` other than its sprites. -/
structure ShakeDrawer where
  Time : Int
  Staged : Option Note

/-- A draw call of `ShakeDrawer.Draw`: the sprite and the scale set on it. -/
inductive ShakeDraw where
  | Border (scale : ℚ)
  | Shake (scale : ℚ)
  deriving DecidableEq

/-- The local variable `borderScale` of `ShakeDrawer.Draw` after lines 73-76, for
`dt = d.Time - d.Staged.Time`. -/
def ShakeDrawer.borderScale (dt : Int) : ℚ :=
  let borderScale : ℚ := 0.25 + 0.75 * (dt : ℚ) / 80
  if borderScale > 1 then 1 else borderScale

/-- `ShakeDrawer.Draw` (lines 66-83). -/
def ShakeDrawer.Draw (d : ShakeDrawer) : List ShakeDraw :=
  match d.Staged with
  | none => []
  | some staged =>
    if staged.Time > d.Time then []
    else
      let borderScale := ShakeDrawer.borderScale (wrap64 (d.Time - staged.Time))
      let shakeScale : ℚ := (staged.HitTick : ℚ) / (staged.Tick : ℚ)
      [ShakeDraw.Border borderScale, ShakeDraw.Shake shakeScale]

/-! ## `RollDrawer` -/

/-- The fields of `RollDrawer` other than its sprites, and the width `W()` of the
two body sprites. -/
structure RollDrawer where
  Time : Int
  Rolls : List Note
  Dots : List Dot
  BodySpritesW : Fin 2 → ℚ

/-- A draw call of `RollDrawer.Draw`: the sprite (of the size class `size`), the
scale set on its length axis and the position it is moved to. -/
inductive RollDraw where
  | Body (size : Fin 2) (ratio : ℚ) (pos : ℚ)
  | Head (size : Fin 2) (pos : ℚ)
  | Tail (size : Fin 2) (pos : ℚ)
  | Dot (dot : Dot) (pos : ℚ)
  deriving DecidableEq

/-- The local variable `tail` of `RollDrawer.Draw` (lines 111-112): a copy of
`head` whose time is advanced by the duration. -/
def RollDrawer.tail (head : Note) : Note :=
  let tail := head
  { tail with Time := wrap64 (tail.Time + head.Duration) }

/-- The body of the first loop of `RollDrawer.Draw` (lines 107-132) for the roll
`head`: no draw call when the roll is skipped, and a panic when `head.Size` is
not an index of the sprite arrays. -/
def RollDrawer.drawRoll (e : DrawConsts) (d : RollDrawer) (head : Note) :
    Option (List RollDraw) :=
  if e.NotePosition head d.Time > e.maxPosition then some []
  else
    let tail := RollDrawer.tail head
    if e.NotePosition tail d.Time < e.minPosition then some []
    else
      let length := e.NotePosition tail d.Time - e.NotePosition head d.Time
      match arrayIndex 2 head.Size with
      | none => none
      | some size =>
        let ratio := length / d.BodySpritesW size
        match arrayIndex 2 tail.Size with
        | none => none
        | some tailSize =>
          some [RollDraw.Body size ratio (e.NotePosition head d.Time),
            RollDraw.Head size (e.NotePosition head d.Time),
            RollDraw.Tail tailSize (e.NotePosition tail d.Time)]

/-- The body of the second loop of `RollDrawer.Draw` (lines 136-153). -/
def RollDrawer.drawDot (e : DrawConsts) (d : RollDrawer) (dot : Dot) : List RollDraw :=
  let pos := e.DotPosition dot d.Time
  if culled e pos = true then []
  else [RollDraw.Dot dot (e.DotPosition dot d.Time)]

/-- `RollDrawer.Draw` (lines 104-155): iteration `i` of either loop takes the
element of index `max - i`. -/
def RollDrawer.Draw (e : DrawConsts) (d : RollDrawer) : Option (List RollDraw) :=
  let rolls := sequenceDraws ((List.range d.Rolls.length).map fun i =>
    match d.Rolls[d.Rolls.length - 1 - i]? with
    | none => none
    | some head => RollDrawer.drawRoll e d head)
  let dots := sequenceDraws ((List.range d.Dots.length).map fun i =>
    match d.Dots[d.Dots.length - 1 - i]? with
    | none => none
    | some dot => some (RollDrawer.drawDot e d dot))
  match rolls, dots with
  | some xs, some ys => some (xs ++ ys)
  | _, _ => none

/-! ## `NoteDarwer.Draw` -/

/-- The slices of notes of `NoteDarwer`, which `Update` does not touch. -/
structure NoteLists where
  Notes : List Note
  Rolls : List Note
  Shakes : List Note

/-- What `NoteDarwer.Draw` draws for one note: the note sprite
`NoteSprites[size][color]` and then the overlay sprite
`OverlaySprites[size][overlay]`, both moved to `pos` and drawn with the alpha
multiplier `alpha`. -/
structure NoteDraw where
  note : Note
  size : Fin 2
  color : Fin 4
  overlay : Fin 2
  pos : ℚ
  alpha : ℚ
  deriving DecidableEq

/-- The local variable `rate` of `NoteDarwer.Draw` in the case `modeRoll`, after
lines 201-207. -/
def NoteDarwer.rollRate (pos : ℚ) : ℚ :=
  let rate := (pos - 0) / 400
  let rate := if rate > 1 then 1 else rate
  let rate := if rate < 0 then 0 else rate
  rate

/-- The alpha multiplier that the `switch` of `NoteDarwer.Draw` (lines 195-213)
puts in the draw options; `mode` is `0` for shakes, `1` for rolls and `2` for
notes, and the multiplier is `1` when no scaling is applied. -/
def NoteDarwer.alpha (d : NoteDarwer) (mode : Nat) (n : Note) (pos : ℚ) : ℚ :=
  match mode with
  | 0 => if n.Time < d.Time then 0 else 1
  | 1 => NoteDarwer.rollRate pos
  | 2 => if n.Marked = true then 0 else 1
  | _ => 1

/-- The body of the inner loop of `NoteDarwer.Draw` (lines 188-221) for the note
`n`: nothing when the note is skipped, a panic when an index expression is out of
range. -/
def NoteDarwer.drawNote (e : DrawConsts) (d : NoteDarwer) (mode : Nat) (n : Note) :
    Option (List NoteDraw) :=
  let pos := e.NotePosition n d.Time
  if culled e pos = true then some []
  else
    match arrayIndex 2 n.Size, arrayIndex 4 n.Color with
    | some size, some color =>
      match arrayIndex 2 d.Overlay with
      | some overlay =>
        some [{ note := n, size := size, color := color, overlay := overlay, pos := pos,
                alpha := NoteDarwer.alpha d mode n pos }]
      | none => none
    | _, _ => none

/-- The inner loop of `NoteDarwer.Draw` (lines 186-222) over one slice: iteration
`i` takes the note of index `max - i`. -/
def NoteDarwer.drawNotes (e : DrawConsts) (d : NoteDarwer) (mode : Nat) (notes : List Note) :
    Option (List NoteDraw) :=
  sequenceDraws ((List.range notes.length).map fun i =>
    match notes[notes.length - 1 - i]? with
    | none => none
    | some n => NoteDarwer.drawNote e d mode n)

/-- `NoteDarwer.Draw` (lines 179-224): the shakes, then the rolls, then the
notes. -/
def NoteDarwer.Draw (e : DrawConsts) (d : NoteDarwer) (l : NoteLists) : Option (List NoteDraw) :=
  sequenceDraws [NoteDarwer.drawNotes e d 0 l.Shakes, NoteDarwer.drawNotes e d 1 l.Rolls,
    NoteDarwer.drawNotes e d 2 l.Notes]

/-! ## `JudgmentDrawer` -/

/-- The struct `gosu.Judgment`, declared in another package of the repository: the
field that `drawer.go` reads.  `gosu.Judgment{}` is the judgment of window `0`. -/
structure Judgment where
  Window : Int
  deriving DecidableEq

/-- The declarations that `JudgmentDrawer` uses and that are declared in other
files: the methods `Is` and `Valid` of `gosu.Judgment`, the judgment `Miss`, and
the method `Age` of the embedded `draws.BaseDrawer`, a function of its fields
`Countdown` and `MaxCountdown`.  They are parameters of the embedding. -/
structure JudgmentConsts where
  Is : Judgment → Judgment → Bool
  Valid : Judgment → Bool
  Miss : Judgment
  Age : Int → Int → ℚ

/-- Modelled from the spec: the methods of `gosu.Judgment` and `draws.BaseDrawer`,
which are not under `src/`.  A judgment belongs to a category when it has the
window of the category, the empty judgment (window `0`) is the one that is not
valid, and the age is the elapsed part of the countdown,
`(MaxCountdown - Countdown) / MaxCountdown`.  The window of `Miss` is a sample
value. -/
def sampleJudgmentConsts : JudgmentConsts :=
  { Is := fun j j2 => decide (j.Window = j2.Window),
    Valid := fun j => decide (j.Window ≠ 0),
    Miss := ⟨100⟩,
    Age := fun countdown maxCountdown =>
      ((maxCountdown : ℚ) - (countdown : ℚ)) / (maxCountdown : ℚ) }

/-- The struct `JudgmentDrawer` without its sprites; `Countdown` and
`MaxCountdown` are the fields of the embedded `draws.BaseDrawer`. -/
structure JudgmentDrawer where
  Countdown : Int
  MaxCountdown : Int
  judgment : Judgment
  big : Bool
  startRadian : ℚ
  radian : ℚ

/-- The local variable `rate` of `JudgmentDrawer.Update` after lines 333-336. -/
def JudgmentDrawer.rate (age : ℚ) : ℚ :=
  let rate : ℚ := 1.0
  if age ≥ 0.25 then (1 + 0.6 * (age - 0.25) / 0.75) else rate

/-- `JudgmentDrawer.Update` (lines 326-349); `r` is the value that
`rand.Float64()` returns if it is called. -/
def JudgmentDrawer.Update (e : JudgmentConsts) (d : JudgmentDrawer) (j : Judgment)
    (big : Bool) (r : ℚ) : JudgmentDrawer :=
  let d :=
    if d.Countdown ≤ 0 then
      let d := { d with judgment := ⟨0⟩ }
      { d with big := false }
    else
      let d := { d with Countdown := d.Countdown - 1 }
      if e.Is j e.Miss = true then
        let rate := JudgmentDrawer.rate (e.Age d.Countdown d.MaxCountdown)
        { d with radian := d.startRadian * rate }
      else d
  if e.Valid j = true then
    let d := { d with Countdown := d.MaxCountdown }
    let d := { d with judgment := j }
    let d := { d with big := big }
    if e.Is j e.Miss = true then
      let d := { d with startRadian := (5 * r - 2.5) / 24 }
      { d with radian := d.startRadian }
    else d
  else d

/-! ## Sample notes -/

/-- A roll of duration 200 at time 600 with speed 1, for evaluating the embedding
on concrete inputs. -/
def sampleRoll : Note :=
  { Time := 600, Duration := 200, Size := 1, Color := 1, Marked := false, Tick := 4,
    HitTick := 2, Speed := 1 }

/-- A roll at time 400 with speed 1, for evaluating the embedding on concrete
inputs. -/
def sampleHead : Note :=
  { Time := 400, Duration := 200, Size := 0, Color := 0, Marked := false, Tick := 4,
    HitTick := 0, Speed := 1 }

/-! ## Theorems -/

theorem BackgroundOp.ratio_eq_min (screen bg : Point) :
    BackgroundOp.ratio screen bg
      = min 1 (min ((screen.X : ℚ) / bg.X) ((screen.Y : ℚ) / bg.Y)) := by
  unfold BackgroundOp.ratio
  simp only []
  by_cases h : (screen.X : ℚ) / bg.X < 1 ∨ (screen.Y : ℚ) / bg.Y < 1
  · rw [if_pos h]
    have hm : min ((screen.X : ℚ) / bg.X) ((screen.Y : ℚ) / bg.Y) < 1 := by
      rcases h with h | h
      · exact lt_of_le_of_lt (min_le_left _ _) h
      · exact lt_of_le_of_lt (min_le_right _ _) h
    rw [min_eq_right hm.le]
    by_cases h2 : (screen.X : ℚ) / bg.X > (screen.Y : ℚ) / bg.Y
    · rw [if_pos h2, min_eq_right h2.le]
    · rw [if_neg h2, min_eq_left (not_lt.mp h2)]
  · rw [if_neg h]
    push_neg at h
    rw [min_eq_left (le_min h.1 h.2)]

theorem BackgroundOp.eq_scale_translate (screen bg : Point) :
    BackgroundOp screen bg =
      { GeoM :=
          { a := BackgroundOp.ratio screen bg, b := 0, c := 0,
            d := BackgroundOp.ratio screen bg,
            tx := ((screen.X : ℚ) - bg.X * BackgroundOp.ratio screen bg) / 2,
            ty := ((screen.Y : ℚ) - bg.Y * BackgroundOp.ratio screen bg) / 2 } } := by
  unfold BackgroundOp
  simp only []
  by_cases h : (screen.X : ℚ) / bg.X < 1 ∨ (screen.Y : ℚ) / bg.Y < 1
  · rw [if_pos h]
    simp [GeoM.Scale, GeoM.Translate]
  · rw [if_neg h]
    have hr : BackgroundOp.ratio screen bg = 1 := by
      unfold BackgroundOp.ratio
      simp only []
      rw [if_neg h]
    simp [GeoM.Translate, hr]

/-- C1. For a picture `bg` of positive size, `BackgroundOp` uses
`ratio = min(1, sx/bx, sy/by)`, the scaled size `(bx*ratio, by*ratio)` and, in the
returned matrix, the scale `ratio` on both axes with the translation
`((sx - bx*ratio)/2, (sy - by*ratio)/2)`.  When `sx ≥ bx` and `sy ≥ by` the ratio
is `1`; for the picture 1920x1080 and the screen 960x1080 the ratio is `1/2`, the
scaled size 960x540 and the translation `(0, 270)`. -/
theorem C1_BackgroundOp_fit (screen bg : Point) (hbx : 0 < bg.X) (hby : 0 < bg.Y)
    (hsx : 0 < screen.X) (hsy : 0 < screen.Y) :
    (BackgroundOp.ratio screen bg
        = min 1 (min ((screen.X : ℚ) / bg.X) ((screen.Y : ℚ) / bg.Y))) ∧
    (BackgroundOp.size screen bg
        = ((bg.X : ℚ) * BackgroundOp.ratio screen bg, (bg.Y : ℚ) * BackgroundOp.ratio screen bg)) ∧
    (BackgroundOp screen bg =
      { GeoM :=
          { a := BackgroundOp.ratio screen bg, b := 0, c := 0,
            d := BackgroundOp.ratio screen bg,
            tx := ((screen.X : ℚ) - (BackgroundOp.size screen bg).1) / 2,
            ty := ((screen.Y : ℚ) - (BackgroundOp.size screen bg).2) / 2 } }) ∧
    (bg.X ≤ screen.X → bg.Y ≤ screen.Y →
      BackgroundOp.ratio screen bg = 1 ∧ BackgroundOp.size screen bg = (↑bg.X, ↑bg.Y)) ∧
    (BackgroundOp.ratio ⟨960, 1080⟩ ⟨1920, 1080⟩ = 1 / 2 ∧
      BackgroundOp.size ⟨960, 1080⟩ ⟨1920, 1080⟩ = (960, 540) ∧
      BackgroundOp ⟨960, 1080⟩ ⟨1920, 1080⟩
        = { GeoM := { a := 1 / 2, b := 0, c := 0, d := 1 / 2, tx := 0, ty := 270 } }) := by
  have _ := hsx
  have _ := hsy
  have hx : (0 : ℚ) < bg.X := by exact_mod_cast hbx
  have hy : (0 : ℚ) < bg.Y := by exact_mod_cast hby
  refine ⟨BackgroundOp.ratio_eq_min screen bg, rfl, ?_, ?_, ?_⟩
  · exact BackgroundOp.eq_scale_translate screen bg
  · intro h1 h2
    have h1q : (bg.X : ℚ) ≤ screen.X := by exact_mod_cast h1
    have h2q : (bg.Y : ℚ) ≤ screen.Y := by exact_mod_cast h2
    have hr : BackgroundOp.ratio screen bg = 1 := by
      rw [BackgroundOp.ratio_eq_min]
      apply min_eq_left
      exact le_min ((one_le_div hx).mpr h1q) ((one_le_div hy).mpr h2q)
    refine ⟨hr, ?_⟩
    simp [BackgroundOp.size, hr]
  · refine ⟨?_, ?_, ?_⟩
    · norm_num [BackgroundOp.ratio]
    · norm_num [BackgroundOp.size, BackgroundOp.ratio]
    · norm_num [BackgroundOp, BackgroundOp.ratio, GeoM.Scale, GeoM.Translate]

/-- Witness of C1 at the picture 1920x1080 and the screen 960x1080. -/
theorem C1_BackgroundOp_fit_witness :
    ((0 : Int) < 1920 ∧ (0 : Int) < 1080 ∧ (0 : Int) < 960 ∧ (0 : Int) < 1080) ∧
    BackgroundOp.ratio ⟨960, 1080⟩ ⟨1920, 1080⟩
      = min 1 (min (((960 : Int) : ℚ) / (1920 : Int)) (((1080 : Int) : ℚ) / (1080 : Int))) :=
  ⟨by decide, (C1_BackgroundOp_fit ⟨960, 1080⟩ ⟨1920, 1080⟩
    (by decide) (by decide) (by decide) (by decide)).1⟩

theorem risingEdge_of_getElem (lastPressed pressed : List Bool) (k : Nat)
    (h1 : k < lastPressed.length) (h2 : k < pressed.length) :
    risingEdge lastPressed pressed k = (!lastPressed[k] && pressed[k]) := by
  unfold risingEdge
  rw [List.getElem?_eq_getElem h1, List.getElem?_eq_getElem h2]

theorem risingEdge_of_length_le (lastPressed pressed : List Bool) (k : Nat)
    (h : pressed.length ≤ k) : risingEdge lastPressed pressed k = false := by
  unfold risingEdge
  rw [List.getElem?_eq_none h]
  cases lastPressed[k]? <;> rfl

theorem KeyDrawer.Update.loop_spec (lastPressed pressed : List Bool)
    (h4 : pressed.length ≤ 4) (hl : pressed.length ≤ lastPressed.length) :
    ∀ (n k : Nat) (d : KeyDrawer), d.lastPressed = lastPressed → k + n = pressed.length →
      ∃ d', KeyDrawer.Update.loop d k (pressed.drop k) = some d' ∧
        d'.MaxCountdown = d.MaxCountdown ∧
        ∀ j : Fin 4, d'.countdowns j =
          if k ≤ j.val ∧ risingEdge lastPressed pressed j.val = true then d.MaxCountdown
          else d.countdowns j := by
  intro n
  induction n with
  | zero =>
    intro k d _ hk
    refine ⟨d, ?_, rfl, ?_⟩
    · rw [List.drop_of_length_le (by omega)]
      rfl
    · intro j
      by_cases hj : k ≤ j.val
      · rw [risingEdge_of_length_le _ _ _ (by omega)]
        simp
      · simp [hj]
  | succ n ih =>
    intro k d hd hk
    subst hd
    have hkp : k < pressed.length := by omega
    have hkl : k < d.lastPressed.length := by omega
    have hk4 : k < 4 := by omega
    rw [List.drop_eq_getElem_cons hkp]
    unfold KeyDrawer.Update.loop
    rw [List.getElem?_eq_getElem hkl]
    simp only []
    have hr := risingEdge_of_getElem d.lastPressed pressed k hkl hkp
    by_cases hc : (!d.lastPressed[k] && pressed[k]) = true
    · rw [if_pos hc, dif_pos hk4]
      obtain ⟨d', h1, h2, h3⟩ := ih (k + 1)
        { d with countdowns := Function.update d.countdowns ⟨k, hk4⟩ d.MaxCountdown } rfl (by omega)
      refine ⟨d', h1, h2, ?_⟩
      intro j
      rw [h3 j]
      by_cases hjk : j = ⟨k, hk4⟩
      · subst hjk
        simp [hr, hc]
      · have hne : j.val ≠ k := fun h => hjk (Fin.ext h)
        simp only [Function.update_noteq hjk]
        have : (k + 1 ≤ j.val) ↔ (k ≤ j.val) := by omega
        simp only [this]
    · rw [if_neg hc]
      obtain ⟨d', h1, h2, h3⟩ := ih (k + 1) d rfl (by omega)
      refine ⟨d', h1, h2, ?_⟩
      intro j
      rw [h3 j]
      by_cases hjk : j.val = k
      · have hrj : risingEdge d.lastPressed pressed j.val = false := by
          rw [hjk, hr]; simpa using hc
        simp [hrj]
      · have : (k + 1 ≤ j.val) ↔ (k ≤ j.val) := by omega
        simp only [this]

theorem KeyDrawer.Update_spec (d : KeyDrawer) (lastPressed pressed : List Bool)
    (h4 : pressed.length ≤ 4) (hl : pressed.length ≤ lastPressed.length) :
    ∃ d', d.Update lastPressed pressed = some d' ∧ d'.MaxCountdown = d.MaxCountdown ∧
      ∀ k : Fin 4, d'.countdowns k =
        if risingEdge lastPressed pressed k.val = true then d.MaxCountdown
        else if d.countdowns k > 0 then d.countdowns k - 1 else d.countdowns k := by
  obtain ⟨d', h1, h2, h3⟩ := KeyDrawer.Update.loop_spec lastPressed pressed h4 hl
    pressed.length 0
    { MaxCountdown := d.MaxCountdown,
      countdowns := fun k => if d.countdowns k > 0 then d.countdowns k - 1 else d.countdowns k,
      lastPressed := lastPressed, pressed := pressed } rfl (by omega)
  refine ⟨d', ?_, h2, ?_⟩
  · unfold KeyDrawer.Update
    simpa using h1
  · intro k
    rw [h3 k]
    simp

theorem KeyDrawer.mem_Draw (d : KeyDrawer) (k : Fin 4) :
    KeyDraw.Key k ∈ d.Draw ↔ 0 < d.countdowns k := by
  simp [KeyDrawer.Draw, List.mem_filter, List.mem_finRange]

theorem KeyDrawer.run_countdown (d : KeyDrawer) (frames : Nat → List Bool × List Bool)
    (k : Fin 4) (hN : 1 ≤ d.MaxCountdown)
    (hwf : ∀ i, (frames i).2.length ≤ 4 ∧ (frames i).2.length ≤ (frames i).1.length)
    (h0 : risingEdge (frames 0).1 (frames 0).2 k.val = true)
    (hrest : ∀ i, 1 ≤ i → risingEdge (frames i).1 (frames i).2 k.val = false) :
    ∀ j : Nat, ∃ d', d.run frames j = some d' ∧ d'.MaxCountdown = d.MaxCountdown ∧
      d'.countdowns k = max (d.MaxCountdown - j) 0 := by
  intro j
  induction j with
  | zero =>
    obtain ⟨d', h1, h2, h3⟩ := KeyDrawer.Update_spec d (frames 0).1 (frames 0).2
      (hwf 0).1 (hwf 0).2
    refine ⟨d', h1, h2, ?_⟩
    rw [h3 k, if_pos h0]
    simp only [Nat.cast_zero, sub_zero]
    rw [max_eq_left (by omega)]
  | succ j ih =>
    obtain ⟨d1, h1, h2, h3⟩ := ih
    obtain ⟨d', g1, g2, g3⟩ := KeyDrawer.Update_spec d1 (frames (j + 1)).1 (frames (j + 1)).2
      (hwf (j + 1)).1 (hwf (j + 1)).2
    refine ⟨d', ?_, g2.trans h2, ?_⟩
    · show (KeyDrawer.run d frames j).bind _ = some d'
      rw [h1]
      exact g1
    · rw [g3 k, hrest (j + 1) (by omega), h3]
      simp only [Bool.false_eq_true, if_false]
      push_cast
      by_cases hp : d.MaxCountdown - j > 0
      · rw [max_eq_left hp.le, if_pos hp, max_eq_left (by omega)]
        ring
      · rw [max_eq_right (by omega), if_neg (by omega), max_eq_right (by omega)]

/-- C3. With `MaxCountdown = N ≥ 1`: if the `Update` of frame 0 sees a rising edge
on lane `k` and the `Update`s of the later frames see none on lane `k`, then after
the `Update` of frame `j` the counter of lane `k` is positive, and `Draw` draws
the key of lane `k`, exactly when `j < N`. -/
theorem C3_afterglow_visible_frames (d : KeyDrawer) (frames : Nat → List Bool × List Bool)
    (k : Fin 4) (hN : 1 ≤ d.MaxCountdown)
    (hwf : ∀ i, (frames i).2.length ≤ 4 ∧ (frames i).2.length ≤ (frames i).1.length)
    (h0 : risingEdge (frames 0).1 (frames 0).2 k.val = true)
    (hrest : ∀ i, 1 ≤ i → risingEdge (frames i).1 (frames i).2 k.val = false) :
    ∀ j : Nat, ∃ d', d.run frames j = some d' ∧
      (0 < d'.countdowns k ↔ (j : Int) < d.MaxCountdown) ∧
      (KeyDraw.Key k ∈ d'.Draw ↔ (j : Int) < d.MaxCountdown) := by
  intro j
  obtain ⟨d', h1, _, h3⟩ := KeyDrawer.run_countdown d frames k hN hwf h0 hrest j
  have hpos : 0 < d'.countdowns k ↔ (j : Int) < d.MaxCountdown := by
    rw [h3]
    constructor
    · intro h
      by_contra hlt
      rw [max_eq_right (by omega)] at h
      exact lt_irrefl _ h
    · intro h
      exact lt_max_of_lt_left (by omega)
  exact ⟨d', h1, hpos, (KeyDrawer.mem_Draw d' k).trans hpos⟩

/-- Witness of C3: `MaxCountdown = 10`, a tap on lane 0 at frame 0; the key is
drawn at frame 9 and not at frame 10. -/
theorem C3_afterglow_visible_frames_witness :
    (∃ d', KeyDrawer.run ⟨10, fun _ => 0, [], []⟩ tapFrames 9 = some d' ∧
      (0 < d'.countdowns 0 ↔ ((9 : Nat) : Int) < 10) ∧
      (KeyDraw.Key 0 ∈ d'.Draw ↔ ((9 : Nat) : Int) < 10)) ∧
    (∃ d', KeyDrawer.run ⟨10, fun _ => 0, [], []⟩ tapFrames 10 = some d' ∧
      (0 < d'.countdowns 0 ↔ ((10 : Nat) : Int) < 10) ∧
      (KeyDraw.Key 0 ∈ d'.Draw ↔ ((10 : Nat) : Int) < 10)) :=
  have h := C3_afterglow_visible_frames ⟨10, fun _ => 0, [], []⟩ tapFrames 0 (by decide)
    (by intro i; unfold tapFrames; split_ifs <;> decide)
    (by decide)
    (by intro i hi; unfold tapFrames; rw [if_neg (by omega)]; split_ifs <;> decide)
  ⟨h 9, h 10⟩

/-- C4. For press vectors with `len(pressed) ≤ 4` and `len(lastPressed) ≥
len(pressed)`, one `Update` returns and sets the counter of each lane: to
`MaxCountdown` on a rising edge, whatever the counter was; otherwise to `old - 1`
when `old > 0` and to `old` when `old ≤ 0`.  A lane that was pressed in the last
frame, or is not pressed in this one, is not reset. -/
theorem C4_update_counters (d : KeyDrawer) (lastPressed pressed : List Bool)
    (h4 : pressed.length ≤ 4) (hl : pressed.length ≤ lastPressed.length) :
    ∃ d', d.Update lastPressed pressed = some d' ∧
      (∀ k : Fin 4, d'.countdowns k =
        if risingEdge lastPressed pressed k.val = true then d.MaxCountdown
        else if d.countdowns k > 0 then d.countdowns k - 1 else d.countdowns k) ∧
      (∀ k : Fin 4, (lastPressed[k.val]? = some true ∨ pressed[k.val]? ≠ some true) →
        d'.countdowns k = if d.countdowns k > 0 then d.countdowns k - 1 else d.countdowns k) := by
  obtain ⟨d', h1, _, h3⟩ := KeyDrawer.Update_spec d lastPressed pressed h4 hl
  refine ⟨d', h1, h3, ?_⟩
  intro k hk
  rw [h3 k]
  have hr : risingEdge lastPressed pressed k.val = false := by
    unfold risingEdge
    rcases hk with hk | hk
    · rw [hk]
      cases pressed[k.val]? <;> rfl
    · cases hl' : lastPressed[k.val]? with
      | none => rfl
      | some last =>
        cases hp : pressed[k.val]? with
        | none => rfl
        | some now =>
          cases now with
          | false => simp
          | true => exact absurd hp hk
  simp [hr]

/-- Witness of C4: lane 0 is held, lane 1 has a rising edge, lane 2 decays. -/
theorem C4_update_counters_witness :
    ∃ d', KeyDrawer.Update ⟨10, fun k => k.val, [], []⟩
        [true, false, false, false] [true, true, false, false] = some d' ∧
      (∀ k : Fin 4, d'.countdowns k =
        if risingEdge [true, false, false, false] [true, true, false, false] k.val = true
        then 10
        else if ((k.val : Int)) > 0 then (k.val : Int) - 1 else (k.val : Int)) ∧
      (∀ k : Fin 4, ([true, false, false, false][k.val]? = some true ∨
          [true, true, false, false][k.val]? ≠ some true) →
        d'.countdowns k = if ((k.val : Int)) > 0 then (k.val : Int) - 1 else (k.val : Int)) :=
  C4_update_counters ⟨10, fun k => k.val, [], []⟩
    [true, false, false, false] [true, true, false, false] (by decide) (by decide)

theorem arrayIndex_eq_some {n : Nat} {i : Int} {m : Fin n} (h : arrayIndex n i = some m) :
    (m.val : Int) = i := by
  unfold arrayIndex at h
  split_ifs at h with hi
  have := Option.some.inj h
  subst this
  exact Int.toNat_of_nonneg hi.1

theorem arrayIndex_isSome {n : Nat} {i : Int} (h0 : 0 ≤ i) (hn : i < n) :
    ∃ m : Fin n, arrayIndex n i = some m := by
  have h : 0 ≤ i ∧ i.toNat < n := ⟨h0, by omega⟩
  exact ⟨⟨i.toNat, h.2⟩, by unfold arrayIndex; rw [dif_pos h]⟩

theorem DancerDrawer.Update.switch_Mode (c : Consts) (d : DancerDrawer) (miss hit : Bool)
    (combo : Int) (highlight : Bool) :
    (DancerDrawer.Update.switch c d miss hit combo highlight).1.Mode =
      if miss = true then c.DancerNo
      else if combo ≥ 50 ∧ combo.tmod 50 < 5 then c.DancerYes
      else if hit = true ∨ d.Time ≥ d.MissDanceEndTime then
        (if highlight = true then c.DancerHigh else c.DancerIdle)
      else d.Mode := by
  unfold DancerDrawer.Update.switch
  dsimp only
  split_ifs <;> simp_all

theorem DancerDrawer.Update.switch_modeChange (c : Consts) (d : DancerDrawer) (miss hit : Bool)
    (combo : Int) (highlight : Bool) :
    (DancerDrawer.Update.switch c d miss hit combo highlight).2 = true ↔
      (DancerDrawer.Update.switch c d miss hit combo highlight).1.Mode ≠ d.Mode := by
  unfold DancerDrawer.Update.switch
  dsimp only
  split_ifs with h1 h2 h3 h4 h5 h6 h7 h8 <;> simp_all <;> exact fun h => absurd h.symm ‹_›

theorem DancerDrawer.Update.switch_fields (c : Consts) (d : DancerDrawer) (miss hit : Bool)
    (combo : Int) (highlight : Bool) :
    (DancerDrawer.Update.switch c d miss hit combo highlight).1.LastFrameTimes
        = d.LastFrameTimes ∧
    (DancerDrawer.Update.switch c d miss hit combo highlight).1.Time = d.Time ∧
    (DancerDrawer.Update.switch c d miss hit combo highlight).1.Sprites = d.Sprites := by
  unfold DancerDrawer.Update.switch
  dsimp only
  split_ifs <;> simp

theorem DancerDrawer.Update.switch_Duration (c : Consts) (d : DancerDrawer) (miss hit : Bool)
    (combo : Int) (highlight : Bool) :
    (DancerDrawer.Update.switch c d miss hit combo highlight).1.Duration =
      if miss = false ∧ (combo ≥ 50 ∧ combo.tmod 50 < 5) ∧ d.Mode ≠ c.DancerYes
      then d.Duration * 2 else d.Duration := by
  unfold DancerDrawer.Update.switch
  dsimp only
  split_ifs <;> simp_all

/-- When the mode left by the `switch` is an index `m` of the arrays, `Update`
returns, and the fields of the state it returns are those left by the `switch`,
with `LastFrameTimes[m]` set on a mode change and `Frame` recomputed. -/
theorem DancerDrawer.Update_eq (c : Consts) (d : DancerDrawer) (time : Int) (bpm : ℚ)
    (miss hit : Bool) (combo : Int) (highlight : Bool) (m : Fin 4)
    (hm : arrayIndex 4 (DancerDrawer.Update.switch c
      { d with Time := time, Duration := 4 * 60000 / c.ScaledBPM bpm }
      miss hit combo highlight).1.Mode = some m) :
    ∃ d', d.Update c time bpm miss hit combo highlight = some d' ∧
      d'.Mode = (DancerDrawer.Update.switch c
        { d with Time := time, Duration := 4 * 60000 / c.ScaledBPM bpm }
        miss hit combo highlight).1.Mode ∧
      d'.Time = time ∧
      d'.Duration = (DancerDrawer.Update.switch c
        { d with Time := time, Duration := 4 * 60000 / c.ScaledBPM bpm }
        miss hit combo highlight).1.Duration ∧
      d'.Sprites = d.Sprites ∧
      d'.LastFrameTimes = (if d'.Mode ≠ d.Mode then Function.update d.LastFrameTimes m time
        else d.LastFrameTimes) ∧
      d'.Frame = floatToInt (DancerDrawer.rate (wrap64 (d'.Time - d'.LastFrameTimes m))
        d'.Duration * ((d'.Sprites m).length : ℚ)) := by
  have hf := DancerDrawer.Update.switch_fields c
    { d with Time := time, Duration := 4 * 60000 / c.ScaledBPM bpm } miss hit combo highlight
  have hc := DancerDrawer.Update.switch_modeChange c
    { d with Time := time, Duration := 4 * 60000 / c.ScaledBPM bpm } miss hit combo highlight
  unfold DancerDrawer.Update
  simp only []
  generalize hs : DancerDrawer.Update.switch c
    { d with Time := time, Duration := 4 * 60000 / c.ScaledBPM bpm }
    miss hit combo highlight = s at hm hf hc
  obtain ⟨s1, s2⟩ := s
  simp only [] at hm hf hc ⊢
  rw [hm]
  simp only []
  refine ⟨_, rfl, ?_⟩
  cases s2 with
  | true =>
    have hne : s1.Mode ≠ d.Mode := hc.mp rfl
    simp [hf.1, hf.2.1, hf.2.2, hne]
  | false =>
    have heq : s1.Mode = d.Mode := by
      by_contra h
      exact Bool.false_ne_true (hc.mpr h)
    simp [hf.1, hf.2.1, hf.2.2, heq]

theorem wrap64_of_range (x : Int) (h1 : -2 ^ 63 ≤ x) (h2 : x < 2 ^ 63) : wrap64 x = x := by
  unfold wrap64
  rw [Int.emod_eq_of_lt (by omega) (by omega)]
  ring

theorem floatToInt_of_nonneg (x : ℚ) (h : 0 ≤ x) : floatToInt x = ⌊x⌋ := by
  unfold floatToInt
  rw [if_pos h]

theorem roundHalfEven_cases (q : ℚ) :
    roundHalfEven q = ⌊q⌋ ∨ roundHalfEven q = ⌊q⌋ + 1 := by
  unfold roundHalfEven
  dsimp only
  split_ifs <;> simp

theorem DancerDrawer.rate_eq_fract (td Duration : ℚ) (hD : 0 < Duration) :
    DancerDrawer.rate td Duration = td / Duration - ⌊td / Duration⌋ := by
  have hq : Remainder td Duration / Duration
      = td / Duration - (roundHalfEven (td / Duration) : ℚ) := by
    unfold Remainder
    field_simp
    ring
  unfold DancerDrawer.rate
  dsimp only
  rw [hq]
  have h0 : (0 : ℚ) ≤ td / Duration - ⌊td / Duration⌋ := by
    have := Int.floor_le (td / Duration)
    linarith
  have h1 : td / Duration - ⌊td / Duration⌋ < 1 := by
    have := Int.lt_floor_add_one (td / Duration)
    linarith
  rcases roundHalfEven_cases (td / Duration) with h | h
  · rw [h, if_neg (not_lt.mpr h0)]
  · rw [h, if_pos (by push_cast; linarith)]
    push_cast
    ring

theorem DancerDrawer.rate_zero (Duration : ℚ) : DancerDrawer.rate 0 Duration = 0 := by
  have hr : roundHalfEven 0 = 0 := by
    unfold roundHalfEven
    norm_num
  unfold DancerDrawer.rate Remainder
  simp [hr]

theorem DancerDrawer.Update.switch_index (c : Consts) (d : DancerDrawer) (miss hit : Bool)
    (combo : Int) (highlight : Bool) (hc : c.ValidModes) (hM : 0 ≤ d.Mode ∧ d.Mode < 4) :
    ∃ m : Fin 4, arrayIndex 4
      (DancerDrawer.Update.switch c d miss hit combo highlight).1.Mode = some m := by
  obtain ⟨h1, h2, h3, h4, _⟩ := hc
  apply arrayIndex_isSome
  · rw [DancerDrawer.Update.switch_Mode]
    split_ifs <;> omega
  · rw [DancerDrawer.Update.switch_Mode]
    split_ifs <;> (push_cast; omega)

/-- C5. From a state whose `Mode` is one of the four modes, `Update` returns, and
the `Mode` after it is given by first-match priority: `DancerNo` if `miss`; else
`DancerYes` if `combo ≥ 50` and `combo mod 50 < 5`; else, if `hit` or
`time ≥ MissDanceEndTime`, `DancerHigh` when `highlight` is set and `DancerIdle`
otherwise; else the `Mode` it had.  A miss wins over every other signal. -/
theorem C5_mode_priority (c : Consts) (d : DancerDrawer) (time : Int) (bpm : ℚ)
    (miss hit : Bool) (combo : Int) (highlight : Bool)
    (hc : c.ValidModes) (hM : 0 ≤ d.Mode ∧ d.Mode < 4) :
    ∃ d', d.Update c time bpm miss hit combo highlight = some d' ∧
      d'.Mode =
        (if miss = true then c.DancerNo
         else if 50 ≤ combo ∧ combo % 50 < 5 then c.DancerYes
         else if hit = true ∨ d.MissDanceEndTime ≤ time then
           (if highlight = true then c.DancerHigh else c.DancerIdle)
         else d.Mode) ∧
      (miss = true → d'.Mode = c.DancerNo) := by
  obtain ⟨m, hm⟩ := DancerDrawer.Update.switch_index c
    { d with Time := time, Duration := 4 * 60000 / c.ScaledBPM bpm } miss hit combo highlight
    hc hM
  obtain ⟨d', h1, h2, _⟩ := DancerDrawer.Update_eq c d time bpm miss hit combo highlight m hm
  have hmod : (50 ≤ combo ∧ combo.tmod 50 < 5) ↔ (50 ≤ combo ∧ combo % 50 < 5) := by
    constructor
    · rintro ⟨h50, h5⟩
      rw [Int.tmod_eq_emod (by omega) (by omega)] at h5
      exact ⟨h50, h5⟩
    · rintro ⟨h50, h5⟩
      rw [Int.tmod_eq_emod (by omega) (by omega)]
      exact ⟨h50, h5⟩
  have hmode : d'.Mode =
      (if miss = true then c.DancerNo
       else if 50 ≤ combo ∧ combo % 50 < 5 then c.DancerYes
       else if hit = true ∨ d.MissDanceEndTime ≤ time then
         (if highlight = true then c.DancerHigh else c.DancerIdle)
       else d.Mode) := by
    rw [h2, DancerDrawer.Update.switch_Mode]
    simp only [ge_iff_le, hmod]
  refine ⟨d', h1, hmode, ?_⟩
  intro hmiss
  rw [hmode, if_pos hmiss]

/-- Witness of C5: a miss together with a hit, combo 50 and the highlight flag. -/
theorem C5_mode_priority_witness :
    ∃ d', sampleDancer.Update sampleConsts 1000 120 true true 50 true = some d' ∧
      d'.Mode = sampleConsts.DancerNo :=
  (C5_mode_priority sampleConsts sampleDancer 1000 120 true true 50 true
    (by decide) (by decide)).imp fun _ h => ⟨h.1, h.2.2 rfl⟩

/-- C6. From a state whose `Mode` is one of the four modes and with a non-zero
period, `Update` returns; when it changes `Mode`, the entry of the new mode in
`LastFrameTimes` is the current time, `Frame` is `0` and the other three entries
are unchanged; when it does not change `Mode`, `LastFrameTimes` is unchanged.  A
miss in mode `DancerHigh` changes the mode to `DancerNo`. -/
theorem C6_mode_change_resets_phase (c : Consts) (d : DancerDrawer) (time : Int) (bpm : ℚ)
    (miss hit : Bool) (combo : Int) (highlight : Bool)
    (hc : c.ValidModes) (hM : 0 ≤ d.Mode ∧ d.Mode < 4) (hS : c.ScaledBPM bpm ≠ 0) :
    ∃ d' m, d.Update c time bpm miss hit combo highlight = some d' ∧
      arrayIndex 4 d'.Mode = some m ∧ d'.Duration ≠ 0 ∧
      (d'.Mode ≠ d.Mode →
        d'.LastFrameTimes m = time ∧ d'.Frame = 0 ∧
        ∀ j : Fin 4, j ≠ m → d'.LastFrameTimes j = d.LastFrameTimes j) ∧
      (d'.Mode = d.Mode → d'.LastFrameTimes = d.LastFrameTimes) ∧
      (d.Mode = c.DancerHigh → miss = true →
        d'.Mode = c.DancerNo ∧ d'.Mode ≠ d.Mode ∧ d'.LastFrameTimes m = time ∧ d'.Frame = 0) := by
  obtain ⟨m, hm⟩ := DancerDrawer.Update.switch_index c
    { d with Time := time, Duration := 4 * 60000 / c.ScaledBPM bpm } miss hit combo highlight
    hc hM
  obtain ⟨d', h1, h2, h3, h4, _, h6, h7⟩ :=
    DancerDrawer.Update_eq c d time bpm miss hit combo highlight m hm
  have hD : d'.Duration ≠ 0 := by
    rw [h4, DancerDrawer.Update.switch_Duration]
    have hbase : (4 * 60000 / c.ScaledBPM bpm : ℚ) ≠ 0 := div_ne_zero (by norm_num) hS
    split_ifs
    · exact mul_ne_zero hbase (by norm_num)
    · exact hbase
  have hchange : d'.Mode ≠ d.Mode →
      d'.LastFrameTimes m = time ∧ d'.Frame = 0 ∧
      ∀ j : Fin 4, j ≠ m → d'.LastFrameTimes j = d.LastFrameTimes j := by
    intro hne
    rw [if_pos hne] at h6
    have hl : d'.LastFrameTimes m = time := by rw [h6]; simp
    refine ⟨hl, ?_, ?_⟩
    · rw [h7, hl, h3]
      have hw : wrap64 (time - time) = 0 := by rw [sub_self]; rfl
      rw [hw]
      simp [DancerDrawer.rate_zero, floatToInt]
    · intro j hj
      rw [h6, Function.update_noteq hj]
  refine ⟨d', m, h1, h2 ▸ hm, hD, hchange, ?_, ?_⟩
  · intro heq
    rw [h6, if_neg (not_not.mpr heq)]
  · intro hhigh hmiss
    have hno : d'.Mode = c.DancerNo := by
      rw [h2, DancerDrawer.Update.switch_Mode, if_pos hmiss]
    have hne : d'.Mode ≠ d.Mode := by
      rw [hno, hhigh]
      exact fun h => hc.2.2.2.2.2.2.2.2.1 h.symm
    exact ⟨hno, hne, (hchange hne).1, (hchange hne).2.1⟩

/-- Witness of C6: a miss at time 1000 in mode `DancerHigh`. -/
theorem C6_mode_change_resets_phase_witness :
    ∃ d' m, DancerDrawer.Update sampleConsts { sampleDancer with Mode := 1 }
        1000 120 true false 0 true = some d' ∧
      arrayIndex 4 d'.Mode = some m ∧ d'.Mode = sampleConsts.DancerNo ∧
      d'.LastFrameTimes m = 1000 ∧ d'.Frame = 0 := by
  obtain ⟨d', m, h1, h2, _, _, _, h6⟩ :=
    C6_mode_change_resets_phase sampleConsts { sampleDancer with Mode := 1 }
      1000 120 true false 0 true (by decide) (by decide) (by norm_num [sampleConsts])
  have h := h6 rfl rfl
  exact ⟨d', m, h1, h2, h.1, h.2.2.1, h.2.2.2⟩

/-- C7. From a state whose `Mode` is one of the four modes and with a positive
period, `Update` returns with `Duration > 0` and the sprites it had; when the
mode has `n > 0` sprites,
the phase computed from the symmetric remainder equals `td/Duration -
floor(td/Duration)` and lies in `[0, 1)`, `Frame = floor(phase * n)`,
`0 ≤ Frame < n`, and `Draw` finds the sprite `Sprites[Mode][Frame]`. -/
theorem C7_frame_in_range (c : Consts) (d : DancerDrawer) (time : Int) (bpm : ℚ)
    (miss hit : Bool) (combo : Int) (highlight : Bool)
    (hc : c.ValidModes) (hM : 0 ≤ d.Mode ∧ d.Mode < 4) (hS : 0 < c.ScaledBPM bpm) :
    ∃ d' m, d.Update c time bpm miss hit combo highlight = some d' ∧
      arrayIndex 4 d'.Mode = some m ∧ 0 < d'.Duration ∧ d'.Sprites = d.Sprites ∧
      (0 < (d'.Sprites m).length →
        DancerDrawer.rate (wrap64 (d'.Time - d'.LastFrameTimes m)) d'.Duration
          = (wrap64 (d'.Time - d'.LastFrameTimes m) : ℚ) / d'.Duration
            - ⌊(wrap64 (d'.Time - d'.LastFrameTimes m) : ℚ) / d'.Duration⌋ ∧
        0 ≤ DancerDrawer.rate (wrap64 (d'.Time - d'.LastFrameTimes m)) d'.Duration ∧
        DancerDrawer.rate (wrap64 (d'.Time - d'.LastFrameTimes m)) d'.Duration < 1 ∧
        d'.Frame = ⌊DancerDrawer.rate (wrap64 (d'.Time - d'.LastFrameTimes m)) d'.Duration
          * ((d'.Sprites m).length : ℚ)⌋ ∧
        0 ≤ d'.Frame ∧ d'.Frame < (d'.Sprites m).length ∧
        ∃ s, d'.Draw = some s ∧ (d'.Sprites m)[d'.Frame.toNat]? = some s) := by
  obtain ⟨m, hm⟩ := DancerDrawer.Update.switch_index c
    { d with Time := time, Duration := 4 * 60000 / c.ScaledBPM bpm } miss hit combo highlight
    hc hM
  obtain ⟨d', h1, h2, _, h4, h5, _, h7⟩ :=
    DancerDrawer.Update_eq c d time bpm miss hit combo highlight m hm
  have hm' : arrayIndex 4 d'.Mode = some m := h2 ▸ hm
  have hD : 0 < d'.Duration := by
    rw [h4, DancerDrawer.Update.switch_Duration]
    have hbase : (0 : ℚ) < 4 * 60000 / c.ScaledBPM bpm := div_pos (by norm_num) hS
    split_ifs
    · exact mul_pos hbase (by norm_num)
    · exact hbase
  refine ⟨d', m, h1, hm', hD, h5, ?_⟩
  intro hn
  have hfr := DancerDrawer.rate_eq_fract (wrap64 (d'.Time - d'.LastFrameTimes m)) d'.Duration hD
  generalize DancerDrawer.rate (wrap64 (d'.Time - d'.LastFrameTimes m)) d'.Duration = phase
    at hfr h7 ⊢
  generalize ((wrap64 (d'.Time - d'.LastFrameTimes m) : ℚ) / d'.Duration) = q at hfr ⊢
  have h0 : 0 ≤ phase := by
    have := Int.floor_le q
    linarith
  have hlt : phase < 1 := by
    have := Int.lt_floor_add_one q
    linarith
  have hnq : (0 : ℚ) < ((d'.Sprites m).length : ℚ) := by exact_mod_cast hn
  have hF : d'.Frame = ⌊phase * ((d'.Sprites m).length : ℚ)⌋ := by
    rw [h7, floatToInt_of_nonneg _ (mul_nonneg h0 hnq.le)]
  have hF0 : 0 ≤ d'.Frame := by
    rw [hF]
    exact Int.floor_nonneg.mpr (mul_nonneg h0 hnq.le)
  have hFn : d'.Frame < (d'.Sprites m).length := by
    rw [hF, Int.floor_lt]
    push_cast
    calc phase * ((d'.Sprites m).length : ℚ) < 1 * ((d'.Sprites m).length : ℚ) :=
          mul_lt_mul_of_pos_right hlt hnq
      _ = ((d'.Sprites m).length : ℚ) := one_mul _
  refine ⟨hfr, h0, hlt, hF, hF0, hFn, ?_⟩
  have hidx : d'.Frame.toNat < (d'.Sprites m).length := by omega
  refine ⟨(d'.Sprites m)[d'.Frame.toNat], ?_, List.getElem?_eq_getElem hidx⟩
  unfold DancerDrawer.Draw
  rw [hm']
  simp only [sliceIndex]
  rw [if_pos hF0]
  exact List.getElem?_eq_getElem hidx

/-- Witness of C7: a clock time before the last frame time of the mode. -/
theorem C7_frame_in_range_witness :
    ∃ d' m, DancerDrawer.Update sampleConsts sampleDancer (-1500) 120 false false 0 false
        = some d' ∧
      arrayIndex 4 d'.Mode = some m ∧ 0 ≤ d'.Frame ∧ d'.Frame < 2 ∧
      ∃ s, d'.Draw = some s := by
  obtain ⟨d', m, h1, h2, _, h4, h5⟩ :=
    C7_frame_in_range sampleConsts sampleDancer (-1500) 120 false false 0 false
      (by decide) (by decide) (by norm_num [sampleConsts])
  have hlen : (d'.Sprites m).length = 2 := by rw [h4]; rfl
  obtain ⟨_, _, _, _, g5, g6, s, g7, _⟩ := h5 (by rw [hlen]; decide)
  rw [hlen] at g6
  exact ⟨d', m, h1, h2, g5, by exact_mod_cast g6, s, g7⟩

theorem DancerDrawer.Update_Mode_Duration (c : Consts) (d : DancerDrawer) (time : Int) (bpm : ℚ)
    (miss hit : Bool) (combo : Int) (highlight : Bool)
    (hc : c.ValidModes) (hM : 0 ≤ d.Mode ∧ d.Mode < 4) :
    ∃ d', d.Update c time bpm miss hit combo highlight = some d' ∧
      d'.Mode =
        (if miss = true then c.DancerNo
         else if combo ≥ 50 ∧ combo.tmod 50 < 5 then c.DancerYes
         else if hit = true ∨ time ≥ d.MissDanceEndTime then
           (if highlight = true then c.DancerHigh else c.DancerIdle)
         else d.Mode) ∧
      d'.Duration =
        (if miss = false ∧ (combo ≥ 50 ∧ combo.tmod 50 < 5) ∧ d.Mode ≠ c.DancerYes
         then 4 * 60000 / c.ScaledBPM bpm * 2 else 4 * 60000 / c.ScaledBPM bpm) := by
  obtain ⟨m, hm⟩ := DancerDrawer.Update.switch_index c
    { d with Time := time, Duration := 4 * 60000 / c.ScaledBPM bpm } miss hit combo highlight
    hc hM
  obtain ⟨d', h1, h2, _, h4, _⟩ :=
    DancerDrawer.Update_eq c d time bpm miss hit combo highlight m hm
  refine ⟨d', h1, ?_, ?_⟩
  · rw [h2, DancerDrawer.Update.switch_Mode]
  · rw [h4, DancerDrawer.Update.switch_Duration]

/-- C8 (the code at a failing input). With `ScaledBPM(120) = 120` the period of the
other modes is `2000`.  The `Update` that enters `DancerYes` (combo 50) leaves
`Duration = 4000`; the `Update` of the next frame, still in `DancerYes`, leaves
`Duration = 2000`, which is not the doubled period. -/
theorem C8_duration_doubled_only_on_entry :
    ∃ d1 d2, sampleDancer.Update sampleConsts 1000 120 false false 50 false = some d1 ∧
      d1.Mode = sampleConsts.DancerYes ∧
      d1.Duration = 2 * (4 * 60000 / sampleConsts.ScaledBPM 120) ∧
      d1.Update sampleConsts 1016 120 false false 50 false = some d2 ∧
      d2.Mode = sampleConsts.DancerYes ∧
      d2.Duration = 4 * 60000 / sampleConsts.ScaledBPM 120 ∧
      d2.Duration ≠ 2 * (4 * 60000 / sampleConsts.ScaledBPM 120) := by
  obtain ⟨d1, h1, h2, h3⟩ := DancerDrawer.Update_Mode_Duration sampleConsts sampleDancer
    1000 120 false false 50 false (by decide) (by decide)
  have hcombo : (50 : Int) ≥ 50 ∧ (50 : Int).tmod 50 < 5 := by decide
  have hm1 : d1.Mode = sampleConsts.DancerYes := by
    rw [h2, if_neg (by decide), if_pos hcombo]
  have hd1 : d1.Duration = 2 * (4 * 60000 / sampleConsts.ScaledBPM 120) := by
    rw [h3, if_pos ⟨rfl, hcombo, by decide⟩]
    ring
  obtain ⟨d2, g1, g2, g3⟩ := DancerDrawer.Update_Mode_Duration sampleConsts d1
    1016 120 false false 50 false (by decide) (by rw [hm1]; decide)
  have hm2 : d2.Mode = sampleConsts.DancerYes := by
    rw [g2, if_neg (by decide), if_pos hcombo]
  have hd2 : d2.Duration = 4 * 60000 / sampleConsts.ScaledBPM 120 := by
    rw [g3, if_neg (fun h => h.2.2 hm1)]
  refine ⟨d1, d2, h1, hm1, hd1, g1, hm2, hd2, ?_⟩
  rw [hd2]
  norm_num [sampleConsts]

theorem floatToInt_intCast (n : Int) : floatToInt (n : ℚ) = n := by
  unfold floatToInt
  split_ifs <;> simp

/-- C9. From a state with `Overlay ∈ {0, 1}`, `Update` sets `OverlayDuration` to
`60000/ScaledBPM(bpm)` truncated to an integer; if `time - LastOverlayChangeTime ≥
OverlayDuration` (an `int64` subtraction) `Overlay` becomes the other index and
`LastOverlayChangeTime` becomes `time`, otherwise both are unchanged.  `Overlay`
stays in `{0, 1}`, so the index expression of `Draw` is in range. -/
theorem C9_overlay_flip (c : Consts) (d : NoteDarwer) (time : Int) (bpm : ℚ)
    (hO : d.Overlay = 0 ∨ d.Overlay = 1) :
    (d.Update c time bpm).OverlayDuration = floatToInt (60000 / c.ScaledBPM bpm) ∧
    (0 ≤ 60000 / c.ScaledBPM bpm →
      (d.Update c time bpm).OverlayDuration = ⌊60000 / c.ScaledBPM bpm⌋) ∧
    (wrap64 (time - d.LastOverlayChangeTime) ≥ (d.Update c time bpm).OverlayDuration →
      (d.Update c time bpm).Overlay = 1 - d.Overlay ∧
      (d.Update c time bpm).LastOverlayChangeTime = time) ∧
    (wrap64 (time - d.LastOverlayChangeTime) < (d.Update c time bpm).OverlayDuration →
      (d.Update c time bpm).Overlay = d.Overlay ∧
      (d.Update c time bpm).LastOverlayChangeTime = d.LastOverlayChangeTime) ∧
    ((d.Update c time bpm).Overlay = 0 ∨ (d.Update c time bpm).Overlay = 1) ∧
    (∃ i : Fin 2, (d.Update c time bpm).overlayIndex = some i) ∧
    (-2 ^ 63 ≤ time - d.LastOverlayChangeTime → time - d.LastOverlayChangeTime < 2 ^ 63 →
      wrap64 (time - d.LastOverlayChangeTime) = time - d.LastOverlayChangeTime) := by
  have hdur : (d.Update c time bpm).OverlayDuration = floatToInt (60000 / c.ScaledBPM bpm) := by
    unfold NoteDarwer.Update
    dsimp only
    split_ifs <;> rfl
  have hflip : ∀ o : Int, o = 0 ∨ o = 1 → (wrap64 (o + 1)).tmod 2 = 1 - o := by
    rintro _ (rfl | rfl) <;> decide
  have hge : wrap64 (time - d.LastOverlayChangeTime) ≥ (d.Update c time bpm).OverlayDuration →
      (d.Update c time bpm).Overlay = 1 - d.Overlay ∧
      (d.Update c time bpm).LastOverlayChangeTime = time := by
    intro h
    rw [hdur] at h
    unfold NoteDarwer.Update
    dsimp only
    rw [if_pos h]
    exact ⟨hflip _ hO, rfl⟩
  have hlt : wrap64 (time - d.LastOverlayChangeTime) < (d.Update c time bpm).OverlayDuration →
      (d.Update c time bpm).Overlay = d.Overlay ∧
      (d.Update c time bpm).LastOverlayChangeTime = d.LastOverlayChangeTime := by
    intro h
    rw [hdur] at h
    unfold NoteDarwer.Update
    dsimp only
    rw [if_neg (not_le.mpr h)]
    exact ⟨rfl, rfl⟩
  have hinv : (d.Update c time bpm).Overlay = 0 ∨ (d.Update c time bpm).Overlay = 1 := by
    rcases le_or_lt (d.Update c time bpm).OverlayDuration
      (wrap64 (time - d.LastOverlayChangeTime)) with h | h
    · rw [(hge h).1]
      rcases hO with h0 | h0 <;> rw [h0] <;> decide
    · rw [(hlt h).1]
      exact hO
  refine ⟨hdur, ?_, hge, hlt, hinv, ?_, wrap64_of_range _⟩
  · intro h
    rw [hdur, floatToInt_of_nonneg _ h]
  · unfold NoteDarwer.overlayIndex
    rcases hinv with h | h
    · exact arrayIndex_isSome (by omega) (by rw [h]; decide)
    · exact arrayIndex_isSome (by omega) (by rw [h]; decide)

/-- Witness of C9: the first `Update`, at time 1250. -/
theorem C9_overlay_flip_witness :
    (NoteDarwer.Update sampleConsts ⟨0, 0, 0, 0⟩ 1250 120).Overlay = 0 ∨
    (NoteDarwer.Update sampleConsts ⟨0, 0, 0, 0⟩ 1250 120).Overlay = 1 :=
  (C9_overlay_flip sampleConsts ⟨0, 0, 0, 0⟩ 1250 120 (Or.inl rfl)).2.2.2.2.1

/-- C10 (the code at failing inputs). With the period `P = 500` and the start
`Overlay = 0`, `LastOverlayChangeTime = 0`: a single `Update` at time 1250 leaves
`Overlay = 1` although `floor(1250/500)` is even; the updates at 450, 900, 1350
leave `Overlay = 1` and the updates at 500, 1000, 1350 leave `Overlay = 0`, both
at time 1350, where `floor(1350/500)` is even. -/
theorem C10_overlay_depends_on_call_times :
    (NoteDarwer.Update sampleConsts ⟨0, 0, 0, 0⟩ 0 120).OverlayDuration = 500 ∧
    (NoteDarwer.run sampleConsts 120 ⟨0, 0, 0, 0⟩ [1250]).Overlay = 1 ∧
    ((1250 : Int) / 500) % 2 = 0 ∧
    (NoteDarwer.run sampleConsts 120 ⟨0, 0, 0, 0⟩ [450, 900, 1350]).Overlay = 1 ∧
    (NoteDarwer.run sampleConsts 120 ⟨0, 0, 0, 0⟩ [500, 1000, 1350]).Overlay = 0 ∧
    ((1350 : Int) / 500) % 2 = 0 := by
  have hP : floatToInt (60000 / sampleConsts.ScaledBPM 120) = 500 := by
    have : (60000 / sampleConsts.ScaledBPM 120 : ℚ) = ((500 : Int) : ℚ) := by
      norm_num [sampleConsts]
    rw [this, floatToInt_intCast]
  have t1 : Int.tmod 1 2 = 1 := by decide
  have t2 : Int.tmod 2 2 = 0 := by decide
  refine ⟨?_, ?_, by decide, ?_, ?_, by decide⟩
  · norm_num [NoteDarwer.Update, hP, wrap64]
  · norm_num [NoteDarwer.run, NoteDarwer.Update, hP, wrap64, t1, t2]
  · norm_num [NoteDarwer.run, NoteDarwer.Update, hP, wrap64, t1, t2]
  · norm_num [NoteDarwer.run, NoteDarwer.Update, hP, wrap64, t1, t2]

theorem JudgmentDrawer.Update_of_not_valid (e : JudgmentConsts) (d : JudgmentDrawer)
    (j : Judgment) (big : Bool) (r : ℚ) (hpos : 0 < d.Countdown)
    (hmiss : e.Is j e.Miss = false) (hvalid : e.Valid j = false) :
    d.Update e j big r = { d with Countdown := d.Countdown - 1 } := by
  unfold JudgmentDrawer.Update
  simp [hmiss, hvalid, not_le.mpr hpos]

/-- C11 (the code at a failing input). The displayed judgment is `Miss`, the
countdown is 5 of 10 and both angles are `1/10`; an `Update` with the empty
judgment decrements the countdown to 4, where the age is `3/5` and
`startRadian * rate = 16/125`, and leaves `radian = 1/10`: the angle is recomputed
only when the incoming judgment `j` is a miss, not when the displayed one is. -/
theorem C11_radian_kept_without_new_judgment :
    (JudgmentDrawer.Update sampleJudgmentConsts
      ⟨5, 10, sampleJudgmentConsts.Miss, false, 1 / 10, 1 / 10⟩ ⟨0⟩ false 0).Countdown = 4 ∧
    (JudgmentDrawer.Update sampleJudgmentConsts
      ⟨5, 10, sampleJudgmentConsts.Miss, false, 1 / 10, 1 / 10⟩ ⟨0⟩ false 0).judgment
        = sampleJudgmentConsts.Miss ∧
    (JudgmentDrawer.Update sampleJudgmentConsts
      ⟨5, 10, sampleJudgmentConsts.Miss, false, 1 / 10, 1 / 10⟩ ⟨0⟩ false 0).radian = 1 / 10 ∧
    sampleJudgmentConsts.Age 4 10 = 3 / 5 ∧
    (1 / 10 : ℚ) * JudgmentDrawer.rate (sampleJudgmentConsts.Age 4 10) = 16 / 125 ∧
    (JudgmentDrawer.Update sampleJudgmentConsts
      ⟨5, 10, sampleJudgmentConsts.Miss, false, 1 / 10, 1 / 10⟩ ⟨0⟩ false 0).radian
      ≠ (1 / 10 : ℚ) * JudgmentDrawer.rate (sampleJudgmentConsts.Age 4 10) := by
  have hU := JudgmentDrawer.Update_of_not_valid sampleJudgmentConsts
    ⟨5, 10, sampleJudgmentConsts.Miss, false, 1 / 10, 1 / 10⟩ ⟨0⟩ false 0
    (by decide) (by decide) (by decide)
  have hage : sampleJudgmentConsts.Age 4 10 = 3 / 5 := by
    norm_num [sampleJudgmentConsts]
  have hrate : (1 / 10 : ℚ) * JudgmentDrawer.rate (sampleJudgmentConsts.Age 4 10) = 16 / 125 := by
    rw [hage]
    norm_num [JudgmentDrawer.rate]
  rw [hU]
  refine ⟨by decide, rfl, rfl, hage, hrate, ?_⟩
  rw [hrate]
  norm_num

/-- C12. After `Update(j, big)` with a valid `j`: `Countdown = MaxCountdown`, the
displayed judgment is `j` and the big flag is `big`, whatever they were; if `j` is
a miss, for the random draw `r` in `[0, 1)` the new starting angle is
`(5r - 2.5)/24`, it lies in `[-2.5/24, 2.5/24)`, and the current angle equals it.
When `j` is not valid the starting angle is unchanged. -/
theorem C12_valid_judgment_overrides (e : JudgmentConsts) (d : JudgmentDrawer) (j : Judgment)
    (big : Bool) (r : ℚ) (hr0 : 0 ≤ r) (hr1 : r < 1) :
    (e.Valid j = true →
      (d.Update e j big r).Countdown = d.MaxCountdown ∧
      (d.Update e j big r).MaxCountdown = d.MaxCountdown ∧
      (d.Update e j big r).judgment = j ∧
      (d.Update e j big r).big = big ∧
      (e.Is j e.Miss = true →
        (d.Update e j big r).startRadian = (5 * r - 2.5) / 24 ∧
        -(2.5 / 24) ≤ (d.Update e j big r).startRadian ∧
        (d.Update e j big r).startRadian < 2.5 / 24 ∧
        (d.Update e j big r).radian = (d.Update e j big r).startRadian)) ∧
    (e.Valid j = false → (d.Update e j big r).startRadian = d.startRadian) := by
  constructor
  · intro hv
    have hfields : (d.Update e j big r).Countdown = d.MaxCountdown ∧
        (d.Update e j big r).MaxCountdown = d.MaxCountdown ∧
        (d.Update e j big r).judgment = j ∧ (d.Update e j big r).big = big := by
      unfold JudgmentDrawer.Update
      dsimp only
      rw [if_pos hv]
      split_ifs <;> simp
    refine ⟨hfields.1, hfields.2.1, hfields.2.2.1, hfields.2.2.2, ?_⟩
    intro hm
    have hs : (d.Update e j big r).startRadian = (5 * r - 2.5) / 24 ∧
        (d.Update e j big r).radian = (5 * r - 2.5) / 24 := by
      unfold JudgmentDrawer.Update
      dsimp only
      rw [if_pos hv, if_pos hm]
      exact ⟨rfl, rfl⟩
    refine ⟨hs.1, ?_, ?_, hs.2.trans hs.1.symm⟩
    · rw [hs.1]
      rw [neg_le_iff_add_nonneg, ← add_div]
      apply div_nonneg _ (by norm_num)
      linarith
    · rw [hs.1]
      apply div_lt_div_of_pos_right _ (by norm_num)
      norm_num
      linarith
  · intro hv
    unfold JudgmentDrawer.Update
    dsimp only
    rw [if_neg (by rw [hv]; exact Bool.false_ne_true)]
    split_ifs <;> rfl

/-- Witness of C12: a miss with the random draw `3/4`, and the empty judgment. -/
theorem C12_valid_judgment_overrides_witness :
    (JudgmentDrawer.Update sampleJudgmentConsts ⟨5, 10, ⟨50⟩, false, 1 / 10, 1 / 10⟩
      sampleJudgmentConsts.Miss true (3 / 4)).Countdown = 10 ∧
    (JudgmentDrawer.Update sampleJudgmentConsts ⟨5, 10, ⟨50⟩, false, 1 / 10, 1 / 10⟩
      sampleJudgmentConsts.Miss true (3 / 4)).startRadian = (5 * (3 / 4) - 2.5) / 24 ∧
    (JudgmentDrawer.Update sampleJudgmentConsts ⟨5, 10, ⟨50⟩, false, 1 / 10, 1 / 10⟩
      ⟨0⟩ true (3 / 4)).startRadian = 1 / 10 :=
  have h := C12_valid_judgment_overrides sampleJudgmentConsts ⟨5, 10, ⟨50⟩, false, 1 / 10, 1 / 10⟩
    sampleJudgmentConsts.Miss true (3 / 4) (by norm_num) (by norm_num)
  have h0 := C12_valid_judgment_overrides sampleJudgmentConsts ⟨5, 10, ⟨50⟩, false, 1 / 10, 1 / 10⟩
    ⟨0⟩ true (3 / 4) (by norm_num) (by norm_num)
  ⟨(h.1 (by decide)).1, ((h.1 (by decide)).2.2.2.2 (by decide)).1, h0.2 (by decide)⟩

theorem culled_eq_false_iff (e : DrawConsts) (pos : ℚ) :
    culled e pos = false ↔ (e.minPosition ≤ pos ∧ pos ≤ e.maxPosition) := by
  unfold culled
  rw [decide_eq_false_iff_not]
  push_neg
  exact and_comm

theorem BarDrawer.Draw_eq_map_filter (e : DrawConsts) (d : BarDrawer) :
    BarDrawer.Draw e d =
      (d.Bars.filter fun b =>
        decide (e.minPosition ≤ b.Speed * (wrap64 (b.Time - d.Time) : ℚ) ∧
          b.Speed * (wrap64 (b.Time - d.Time) : ℚ) ≤ e.maxPosition)).map
        fun b => (b, b.Speed * (wrap64 (b.Time - d.Time) : ℚ)) := by
  unfold BarDrawer.Draw
  induction d.Bars with
  | nil => rfl
  | cons b bs ih =>
    rw [List.filterMap_cons, List.filter_cons]
    by_cases h : b.Speed * (wrap64 (b.Time - d.Time) : ℚ) ≤ e.maxPosition ∧
        b.Speed * (wrap64 (b.Time - d.Time) : ℚ) ≥ e.minPosition
    · simp only [if_pos h, ih]
      rw [if_pos (by simpa using ⟨h.2, h.1⟩)]
      rfl
    · simp only [if_neg h, ih]
      rw [if_neg (by simpa using fun h1 h2 => h ⟨h2, h1⟩)]

/-- C13. `BarDrawer.Draw` computes for a bar `(T, S)` at clock time `t` the
position `S * (T - t)` (an `int64` subtraction), which is `0` when `t = T`; it
draws the bars of the list whose position lies in `[minPosition, maxPosition]`,
and no other.  The test of the loops over dots and notes lets through exactly the
positions of that range. -/
theorem C13_bar_position_and_cull (e : DrawConsts) (d : BarDrawer) :
    (BarDrawer.Draw e d =
      (d.Bars.filter fun b =>
        decide (e.minPosition ≤ b.Speed * (wrap64 (b.Time - d.Time) : ℚ) ∧
          b.Speed * (wrap64 (b.Time - d.Time) : ℚ) ≤ e.maxPosition)).map
        fun b => (b, b.Speed * (wrap64 (b.Time - d.Time) : ℚ))) ∧
    (∀ (b : Bar) (pos : ℚ), (b, pos) ∈ BarDrawer.Draw e d ↔
      b ∈ d.Bars ∧ pos = b.Speed * (wrap64 (b.Time - d.Time) : ℚ) ∧
        e.minPosition ≤ pos ∧ pos ≤ e.maxPosition) ∧
    (∀ b : Bar, -2 ^ 63 ≤ b.Time - d.Time → b.Time - d.Time < 2 ^ 63 →
      b.Speed * (wrap64 (b.Time - d.Time) : ℚ) = b.Speed * ((b.Time : ℚ) - (d.Time : ℚ))) ∧
    (∀ b : Bar, b.Time = d.Time → b.Speed * (wrap64 (b.Time - d.Time) : ℚ) = 0) ∧
    (∀ pos : ℚ, culled e pos = false ↔ (e.minPosition ≤ pos ∧ pos ≤ e.maxPosition)) ∧
    (∀ (r : RollDrawer) (dot : Dot), RollDrawer.drawDot e r dot ≠ [] ↔
      (e.minPosition ≤ e.DotPosition dot r.Time ∧ e.DotPosition dot r.Time ≤ e.maxPosition)) ∧
    (∀ (n : NoteDarwer) (mode : Nat) (note : Note), NoteDarwer.drawNote e n mode note ≠ some [] ↔
      (e.minPosition ≤ e.NotePosition note n.Time ∧
        e.NotePosition note n.Time ≤ e.maxPosition)) := by
  refine ⟨BarDrawer.Draw_eq_map_filter e d, ?_, ?_, ?_, culled_eq_false_iff e, ?_, ?_⟩
  · intro b pos
    rw [BarDrawer.Draw_eq_map_filter]
    simp only [List.mem_map, List.mem_filter, decide_eq_true_eq, Prod.mk.injEq]
    constructor
    · rintro ⟨b', ⟨hb, h1, h2⟩, rfl, rfl⟩
      exact ⟨hb, rfl, h1, h2⟩
    · rintro ⟨hb, rfl, h1, h2⟩
      exact ⟨b, ⟨hb, h1, h2⟩, rfl, rfl⟩
  · intro b h1 h2
    rw [wrap64_of_range _ h1 h2]
    push_cast
    rfl
  · intro b h
    rw [h, sub_self]
    have : wrap64 0 = 0 := rfl
    rw [this]
    simp
  · intro r dot
    rw [← culled_eq_false_iff]
    unfold RollDrawer.drawDot
    dsimp only
    cases culled e (e.DotPosition dot r.Time) <;> simp
  · intro n mode note
    rw [← culled_eq_false_iff]
    unfold NoteDarwer.drawNote
    dsimp only
    cases culled e (e.NotePosition note n.Time)
    · simp only [Bool.false_eq_true, if_false, ne_eq, iff_true]
      cases arrayIndex 2 note.Size <;> cases arrayIndex 4 note.Color <;>
        cases arrayIndex 2 n.Overlay <;> simp
    · simp

theorem ShakeDrawer.borderScale_eq_min (dt : Int) :
    ShakeDrawer.borderScale dt = min 1 (0.25 + 0.75 * (dt : ℚ) / 80) := by
  unfold ShakeDrawer.borderScale
  dsimp only
  split_ifs with h
  · rw [min_eq_left h.le]
  · rw [min_eq_right (not_lt.mp h)]

/-- C14. `ShakeDrawer.Draw` draws nothing when no note is staged or when the
staged note is later than the clock; otherwise it draws the border with the scale
`min(1, 0.25 + 0.75*dt/80)`, `dt = Time - Staged.Time` (an `int64` subtraction),
which is `0.25` at `dt = 0`, `1` for `dt ≥ 80`, non-decreasing in `dt` and within
`[0.25, 1]` for `dt ≥ 0`. -/
theorem C14_shake_border_scale (d : ShakeDrawer) :
    (d.Staged = none → d.Draw = []) ∧
    (∀ n : Note, d.Staged = some n → n.Time > d.Time → d.Draw = []) ∧
    (∀ n : Note, d.Staged = some n → n.Time ≤ d.Time →
      d.Draw = [ShakeDraw.Border (min 1 (0.25 + 0.75 * (wrap64 (d.Time - n.Time) : ℚ) / 80)),
        ShakeDraw.Shake ((n.HitTick : ℚ) / (n.Tick : ℚ))]) ∧
    (∀ n : Note, n.Time ≤ d.Time → d.Time - n.Time < 2 ^ 63 →
      wrap64 (d.Time - n.Time) = d.Time - n.Time ∧ 0 ≤ wrap64 (d.Time - n.Time)) ∧
    (∀ dt : Int, ShakeDrawer.borderScale dt = min 1 (0.25 + 0.75 * (dt : ℚ) / 80)) ∧
    ShakeDrawer.borderScale 0 = 0.25 ∧
    (∀ dt : Int, 80 ≤ dt → ShakeDrawer.borderScale dt = 1) ∧
    (∀ dt1 dt2 : Int, dt1 ≤ dt2 → ShakeDrawer.borderScale dt1 ≤ ShakeDrawer.borderScale dt2) ∧
    (∀ dt : Int, 0 ≤ dt →
      0.25 ≤ ShakeDrawer.borderScale dt ∧ ShakeDrawer.borderScale dt ≤ 1) := by
  refine ⟨?_, ?_, ?_, ?_, ShakeDrawer.borderScale_eq_min, ?_, ?_, ?_, ?_⟩
  · intro h
    unfold ShakeDrawer.Draw
    rw [h]
  · intro n h hlt
    unfold ShakeDrawer.Draw
    rw [h]
    dsimp only
    rw [if_pos hlt]
  · intro n h hle
    unfold ShakeDrawer.Draw
    rw [h]
    dsimp only
    rw [if_neg (not_lt.mpr hle), ShakeDrawer.borderScale_eq_min]
  · intro n hle hlt
    have h := wrap64_of_range (d.Time - n.Time) (by omega) hlt
    exact ⟨h, by rw [h]; omega⟩
  · rw [ShakeDrawer.borderScale_eq_min]
    norm_num
  · intro dt h
    rw [ShakeDrawer.borderScale_eq_min]
    apply min_eq_left
    have : (80 : ℚ) ≤ dt := by exact_mod_cast h
    linarith
  · intro dt1 dt2 h
    rw [ShakeDrawer.borderScale_eq_min, ShakeDrawer.borderScale_eq_min]
    apply min_le_min le_rfl
    have : (dt1 : ℚ) ≤ dt2 := by exact_mod_cast h
    linarith
  · intro dt h
    rw [ShakeDrawer.borderScale_eq_min]
    have : (0 : ℚ) ≤ dt := by exact_mod_cast h
    refine ⟨le_min (by norm_num) (by linarith), min_le_left _ _⟩

theorem range_map_reverse_index {α β : Type} (l : List α) (f : Option α → β) :
    (List.range l.length).map (fun i => f l[l.length - 1 - i]?) =
      l.reverse.map (fun x => f (some x)) := by
  apply List.ext_getElem
  · simp
  · intro i h1 h2
    have hi : i < l.length := by simpa using h1
    simp only [List.getElem_map, List.getElem_range, List.getElem_reverse]
    rw [List.getElem?_eq_getElem (by omega)]

theorem sequenceDraws_map_some {α β : Type} (l : List α) (f : α → List β) :
    sequenceDraws (l.map fun x => some (f x)) = some ((l.map f).foldr (· ++ ·) []) := by
  induction l with
  | nil => rfl
  | cons x xs ih =>
    simp only [List.map_cons, sequenceDraws, ih, List.foldr_cons]

theorem RollDrawer.Draw_eq (e : DrawConsts) (d : RollDrawer) :
    RollDrawer.Draw e d =
      match sequenceDraws (d.Rolls.reverse.map (RollDrawer.drawRoll e d)) with
      | none => none
      | some xs => some (xs ++ (d.Dots.reverse.map (RollDrawer.drawDot e d)).foldr (· ++ ·) []) := by
  have h1 := range_map_reverse_index d.Rolls
    (fun o => match o with
      | none => none
      | some head => RollDrawer.drawRoll e d head)
  have h2 := range_map_reverse_index d.Dots
    (fun o => match o with
      | none => (none : Option (List RollDraw))
      | some dot => some (RollDrawer.drawDot e d dot))
  unfold RollDrawer.Draw
  dsimp only at h1 h2 ⊢
  rw [h1, h2, sequenceDraws_map_some]
  cases sequenceDraws (d.Rolls.reverse.map fun x => RollDrawer.drawRoll e d x) <;> rfl

/-- C15. The rolls are drawn by `drawRoll`, last index first.  For a roll that is
drawn, the body sprite is scaled on its length axis by `(tailPosition -
headPosition) / W`, where the tail is a copy of the note with the time `Time +
Duration`; the factor is `200 / W` for the positions 100 and 300, and with the
position of the spec it is `Speed * Duration / W` at every clock time for which
the `int64` operations do not overflow. -/
theorem C15_body_scale (e : DrawConsts) (d : RollDrawer) (head : Note) (size : Fin 2)
    (hsize : arrayIndex 2 head.Size = some size)
    (hhead : ¬ e.NotePosition head d.Time > e.maxPosition)
    (htail : ¬ e.NotePosition (RollDrawer.tail head) d.Time < e.minPosition) :
    (RollDrawer.Draw e d =
      match sequenceDraws (d.Rolls.reverse.map (RollDrawer.drawRoll e d)) with
      | none => none
      | some xs =>
        some (xs ++ (d.Dots.reverse.map (RollDrawer.drawDot e d)).foldr (· ++ ·) [])) ∧
    RollDrawer.drawRoll e d head =
      some [RollDraw.Body size
          ((e.NotePosition (RollDrawer.tail head) d.Time - e.NotePosition head d.Time)
            / d.BodySpritesW size)
          (e.NotePosition head d.Time),
        RollDraw.Head size (e.NotePosition head d.Time),
        RollDraw.Tail size (e.NotePosition (RollDrawer.tail head) d.Time)] ∧
    RollDrawer.tail head = { head with Time := wrap64 (head.Time + head.Duration) } ∧
    (e.NotePosition head d.Time = 100 → e.NotePosition (RollDrawer.tail head) d.Time = 300 →
      (e.NotePosition (RollDrawer.tail head) d.Time - e.NotePosition head d.Time)
        / d.BodySpritesW size = 200 / d.BodySpritesW size) ∧
    (e.NotePosition = Note.specPosition →
      (-2 ^ 63 ≤ head.Time + head.Duration ∧ head.Time + head.Duration < 2 ^ 63) →
      (-2 ^ 63 ≤ head.Time - d.Time ∧ head.Time - d.Time < 2 ^ 63) →
      (-2 ^ 63 ≤ head.Time + head.Duration - d.Time ∧
        head.Time + head.Duration - d.Time < 2 ^ 63) →
      (e.NotePosition (RollDrawer.tail head) d.Time - e.NotePosition head d.Time)
        / d.BodySpritesW size = head.Speed * (head.Duration : ℚ) / d.BodySpritesW size) := by
  refine ⟨RollDrawer.Draw_eq e d, ?_, rfl, ?_, ?_⟩
  · have hts : arrayIndex 2 (RollDrawer.tail head).Size = some size := hsize
    unfold RollDrawer.drawRoll
    dsimp only
    rw [if_neg hhead, if_neg htail, hsize, hts]
  · intro h1 h2
    rw [h1, h2]
    norm_num
  · intro hp h1 h2 h3
    rw [hp]
    unfold Note.specPosition RollDrawer.tail
    dsimp only
    rw [wrap64_of_range _ h1.1 h1.2, wrap64_of_range _ h2.1 h2.2, wrap64_of_range _ h3.1 h3.2]
    push_cast
    ring

/-- Witness of C15: the roll `sampleRoll` at clock time 500, head position 100 and
tail position 300. -/
theorem C15_body_scale_witness :
    RollDrawer.drawRoll sampleDrawConsts ⟨500, [sampleRoll], [], fun _ => 50⟩ sampleRoll =
      some [RollDraw.Body 1
          ((sampleDrawConsts.NotePosition (RollDrawer.tail sampleRoll) 500
            - sampleDrawConsts.NotePosition sampleRoll 500) / 50)
          (sampleDrawConsts.NotePosition sampleRoll 500),
        RollDraw.Head 1 (sampleDrawConsts.NotePosition sampleRoll 500),
        RollDraw.Tail 1 (sampleDrawConsts.NotePosition (RollDrawer.tail sampleRoll) 500)] ∧
    (sampleDrawConsts.NotePosition (RollDrawer.tail sampleRoll) 500
      - sampleDrawConsts.NotePosition sampleRoll 500) / 50 = 200 / 50 :=
  have hh : sampleDrawConsts.NotePosition sampleRoll 500 = 100 := by
    norm_num [sampleDrawConsts, Note.specPosition, sampleRoll, wrap64]
  have ht : sampleDrawConsts.NotePosition (RollDrawer.tail sampleRoll) 500 = 300 := by
    norm_num [sampleDrawConsts, Note.specPosition, RollDrawer.tail, sampleRoll, wrap64]
  have h := C15_body_scale sampleDrawConsts ⟨500, [sampleRoll], [], fun _ => 50⟩ sampleRoll 1
    (by decide)
    (by rw [hh]; norm_num [sampleDrawConsts])
    (by rw [ht]; norm_num [sampleDrawConsts])
  ⟨h.2.1, h.2.2.2.1 hh ht⟩

theorem DancerDrawer.Update.switch_MissDanceEndTime (c : Consts) (d : DancerDrawer)
    (miss hit : Bool) (combo : Int) (highlight : Bool) :
    (DancerDrawer.Update.switch c d miss hit combo highlight).1.MissDanceEndTime =
      if miss = true then wrap64 (d.Time + floatToInt (d.Duration * 4))
      else d.MissDanceEndTime := by
  unfold DancerDrawer.Update.switch
  dsimp only
  split_ifs <;> simp_all

theorem DancerDrawer.Update_MissDanceEndTime (c : Consts) (d : DancerDrawer) (time : Int)
    (bpm : ℚ) (miss hit : Bool) (combo : Int) (highlight : Bool) (d' : DancerDrawer)
    (h : d.Update c time bpm miss hit combo highlight = some d') :
    d'.MissDanceEndTime =
      if miss = true then wrap64 (time + floatToInt (4 * 60000 / c.ScaledBPM bpm * 4))
      else d.MissDanceEndTime := by
  have hs := DancerDrawer.Update.switch_MissDanceEndTime c
    { d with Time := time, Duration := 4 * 60000 / c.ScaledBPM bpm } miss hit combo highlight
  unfold DancerDrawer.Update at h
  simp only [] at h
  generalize DancerDrawer.Update.switch c
    { d with Time := time, Duration := 4 * 60000 / c.ScaledBPM bpm }
    miss hit combo highlight = s at h hs
  obtain ⟨s1, s2⟩ := s
  simp only [] at h hs
  cases hidx : arrayIndex 4 s1.Mode with
  | none => rw [hidx] at h; exact absurd h (by simp)
  | some m =>
    rw [hidx] at h
    simp only [Option.some.injEq] at h
    rw [← h, ← hs]
    cases s2 <;> rfl

/-- C16. From a state whose `Mode` is one of the four modes and with a positive
period, two `Update`s in a row with the same input both return, and the second
leaves the `Mode`, the `Frame`, the `LastFrameTimes` and the `MissDanceEndTime`
that the first left. -/
theorem C16_update_idempotent (c : Consts) (d : DancerDrawer) (time : Int) (bpm : ℚ)
    (miss hit : Bool) (combo : Int) (highlight : Bool)
    (hc : c.ValidModes) (hM : 0 ≤ d.Mode ∧ d.Mode < 4) (hS : 0 < c.ScaledBPM bpm) :
    ∃ d1 d2, d.Update c time bpm miss hit combo highlight = some d1 ∧
      d1.Update c time bpm miss hit combo highlight = some d2 ∧
      d2.Mode = d1.Mode ∧ d2.Frame = d1.Frame ∧
      d2.LastFrameTimes = d1.LastFrameTimes ∧
      d2.MissDanceEndTime = d1.MissDanceEndTime := by
  have _ := hS
  obtain ⟨m, hm⟩ := DancerDrawer.Update.switch_index c
    { d with Time := time, Duration := 4 * 60000 / c.ScaledBPM bpm } miss hit combo highlight
    hc hM
  obtain ⟨d1, h1, h2, h3, h4, h5, h6, h7⟩ :=
    DancerDrawer.Update_eq c d time bpm miss hit combo highlight m hm
  have hm1 : arrayIndex 4 d1.Mode = some m := h2 ▸ hm
  have hM1 : 0 ≤ d1.Mode ∧ d1.Mode < 4 := by
    have := arrayIndex_eq_some hm1
    have := m.isLt
    omega
  have hmiss1 := DancerDrawer.Update_MissDanceEndTime c d time bpm miss hit combo highlight d1 h1
  rw [DancerDrawer.Update.switch_Mode] at h2
  simp only [] at h2
  -- the second call finds the mode it would set
  have hmode2 : (DancerDrawer.Update.switch c
      { d1 with Time := time, Duration := 4 * 60000 / c.ScaledBPM bpm }
      miss hit combo highlight).1.Mode = d1.Mode := by
    rw [DancerDrawer.Update.switch_Mode]
    simp only []
    rw [hmiss1]
    by_cases hmi : miss = true
    · rw [if_pos hmi] at h2 ⊢
      exact h2.symm
    · rw [if_neg hmi] at h2 ⊢
      rw [if_neg hmi]
      by_cases hco : combo ≥ 50 ∧ combo.tmod 50 < 5
      · rw [if_pos hco] at h2 ⊢
        exact h2.symm
      · rw [if_neg hco] at h2 ⊢
        by_cases hh : hit = true ∨ time ≥ d.MissDanceEndTime
        · rw [if_pos hh] at h2 ⊢
          exact h2.symm
        · rw [if_neg hh]
  have hm2 : arrayIndex 4 (DancerDrawer.Update.switch c
      { d1 with Time := time, Duration := 4 * 60000 / c.ScaledBPM bpm }
      miss hit combo highlight).1.Mode = some m := by rw [hmode2]; exact hm1
  obtain ⟨d2, g1, g2, g3, g4, g5, g6, g7⟩ :=
    DancerDrawer.Update_eq c d1 time bpm miss hit combo highlight m hm2
  have hmodeq : d2.Mode = d1.Mode := g2.trans hmode2
  have hlft : d2.LastFrameTimes = d1.LastFrameTimes := by
    rw [g6, if_neg (not_not.mpr hmodeq)]
  have hmiss2 := DancerDrawer.Update_MissDanceEndTime c d1 time bpm miss hit combo highlight d2 g1
  have hmde : d2.MissDanceEndTime = d1.MissDanceEndTime := by
    rw [hmiss2, hmiss1]
    split_ifs <;> rfl
  refine ⟨d1, d2, h1, g1, hmodeq, ?_, hlft, hmde⟩
  rw [g7, h7, hlft, g3, h3, g5, h5]
  -- the two periods differ only when the first call has entered `DancerYes`
  rw [DancerDrawer.Update.switch_Duration] at h4 g4
  simp only [] at h4 g4
  by_cases hent : miss = false ∧ (combo ≥ 50 ∧ combo.tmod 50 < 5) ∧ d.Mode ≠ c.DancerYes
  · have hyes : d1.Mode = c.DancerYes := by
      rw [h2, if_neg (by rw [hent.1]; exact Bool.false_ne_true), if_pos hent.2.1]
    have hne : d1.Mode ≠ d.Mode := by
      rw [hyes]
      exact fun h => hent.2.2 h.symm
    have hl : d1.LastFrameTimes m = time := by
      rw [h6, if_pos hne]
      simp
    have hw : wrap64 (time - time) = 0 := by rw [sub_self]; rfl
    rw [hl, hw]
    simp [DancerDrawer.rate_zero]
  · have hd1 : d1.Duration = 4 * 60000 / c.ScaledBPM bpm := by rw [h4, if_neg hent]
    have hd2 : d2.Duration = 4 * 60000 / c.ScaledBPM bpm := by
      rw [g4]
      split_ifs with hx
      · exfalso
        apply hx.2.2
        rw [h2, if_neg (by rw [hx.1]; exact Bool.false_ne_true), if_pos hx.2.1]
      · rfl
    rw [hd1, hd2]

/-- Witness of C16: the `Update` that enters `DancerYes`, repeated. -/
theorem C16_update_idempotent_witness :
    ∃ d1 d2, sampleDancer.Update sampleConsts 1000 120 false false 50 false = some d1 ∧
      d1.Update sampleConsts 1000 120 false false 50 false = some d2 ∧
      d2.Mode = d1.Mode ∧ d2.Frame = d1.Frame ∧
      d2.LastFrameTimes = d1.LastFrameTimes ∧
      d2.MissDanceEndTime = d1.MissDanceEndTime :=
  C16_update_idempotent sampleConsts sampleDancer 1000 120 false false 50 false
    (by decide) (by decide) (by norm_num [sampleConsts])

theorem NoteDarwer.drawNotes_eq (e : DrawConsts) (d : NoteDarwer) (mode : Nat)
    (notes : List Note) :
    NoteDarwer.drawNotes e d mode notes =
      sequenceDraws (notes.reverse.map (NoteDarwer.drawNote e d mode)) := by
  have h := range_map_reverse_index notes
    (fun o => match o with
      | none => none
      | some n => NoteDarwer.drawNote e d mode n)
  unfold NoteDarwer.drawNotes
  dsimp only at h ⊢
  rw [h]

theorem NoteDarwer.drawNote_of_valid (e : DrawConsts) (d : NoteDarwer) (mode : Nat) (n : Note)
    (hO : d.Overlay = 0 ∨ d.Overlay = 1)
    (hn : (0 ≤ n.Size ∧ n.Size < 2) ∧ (0 ≤ n.Color ∧ n.Color < 4)) :
    ∃ calls, NoteDarwer.drawNote e d mode n = some calls ∧
      calls.map (fun x => x.note) = [n].filter (fun n => !culled e (e.NotePosition n d.Time)) ∧
      ∀ x ∈ calls, x.pos = e.NotePosition n d.Time ∧
        x.alpha = NoteDarwer.alpha d mode n (e.NotePosition n d.Time) := by
  obtain ⟨s, hs⟩ := arrayIndex_isSome (n := 2) hn.1.1 (by exact_mod_cast hn.1.2)
  obtain ⟨c, hc⟩ := arrayIndex_isSome (n := 4) hn.2.1 (by exact_mod_cast hn.2.2)
  obtain ⟨o, ho⟩ : ∃ o, arrayIndex 2 d.Overlay = some o := by
    rcases hO with h | h <;> rw [h] <;> exact ⟨_, rfl⟩
  unfold NoteDarwer.drawNote
  dsimp only
  cases hcu : culled e (e.NotePosition n d.Time)
  · simp [hs, hc, ho, hcu]
  · simp [hcu]

theorem NoteDarwer.sequence_drawNote (e : DrawConsts) (d : NoteDarwer) (mode : Nat)
    (hO : d.Overlay = 0 ∨ d.Overlay = 1) (notes : List Note)
    (hn : ∀ n ∈ notes, (0 ≤ n.Size ∧ n.Size < 2) ∧ (0 ≤ n.Color ∧ n.Color < 4)) :
    ∃ calls, sequenceDraws (notes.map (NoteDarwer.drawNote e d mode)) = some calls ∧
      calls.map (fun x => x.note)
        = notes.filter (fun n => !culled e (e.NotePosition n d.Time)) := by
  induction notes with
  | nil => exact ⟨[], rfl, rfl⟩
  | cons n ns ih =>
    obtain ⟨ys, h1, h2⟩ := ih (fun x hx => hn x (List.mem_cons_of_mem _ hx))
    obtain ⟨xs, g1, g2, _⟩ := NoteDarwer.drawNote_of_valid e d mode n hO
      (hn n (List.mem_cons_self _ _))
    refine ⟨xs ++ ys, ?_, ?_⟩
    · simp only [List.map_cons, g1, sequenceDraws, h1]
    · rw [List.map_append, g2, h2]
      cases hcu : culled e (e.NotePosition n d.Time) <;> simp [List.filter_cons, hcu]

/-- `BarDrawer.Draw` draws the on-screen bars in the order of the list.
`NoteDarwer.Draw`, for notes whose `Size` and `Color` index the sprite arrays and
`Overlay` in `{0, 1}`, returns, and draws the on-screen shakes, then the on-screen
rolls, then the on-screen notes, each list in descending index order. -/
theorem NoteDarwer.Draw_order (e : DrawConsts) (b : BarDrawer) (d : NoteDarwer) (l : NoteLists)
    (hO : d.Overlay = 0 ∨ d.Overlay = 1)
    (hn : ∀ n ∈ l.Shakes ++ l.Rolls ++ l.Notes,
      (0 ≤ n.Size ∧ n.Size < 2) ∧ (0 ≤ n.Color ∧ n.Color < 4)) :
    ((BarDrawer.Draw e b).map Prod.fst =
      b.Bars.filter fun x =>
        decide (e.minPosition ≤ x.Speed * (wrap64 (x.Time - b.Time) : ℚ) ∧
          x.Speed * (wrap64 (x.Time - b.Time) : ℚ) ≤ e.maxPosition)) ∧
    ∃ calls, NoteDarwer.Draw e d l = some calls ∧
      calls.map (fun x => x.note) =
        (l.Shakes.filter fun n => !culled e (e.NotePosition n d.Time)).reverse ++
        (l.Rolls.filter fun n => !culled e (e.NotePosition n d.Time)).reverse ++
        (l.Notes.filter fun n => !culled e (e.NotePosition n d.Time)).reverse := by
  constructor
  · rw [BarDrawer.Draw_eq_map_filter, List.map_map]
    exact List.map_id _
  · obtain ⟨xs, hx1, hx2⟩ := NoteDarwer.sequence_drawNote e d 0 hO l.Shakes.reverse
      (fun n h => hn n (by simp at h ⊢; tauto))
    obtain ⟨ys, hy1, hy2⟩ := NoteDarwer.sequence_drawNote e d 1 hO l.Rolls.reverse
      (fun n h => hn n (by simp at h ⊢; tauto))
    obtain ⟨zs, hz1, hz2⟩ := NoteDarwer.sequence_drawNote e d 2 hO l.Notes.reverse
      (fun n h => hn n (by simp at h ⊢; tauto))
    refine ⟨xs ++ (ys ++ (zs ++ [])), ?_, ?_⟩
    · unfold NoteDarwer.Draw
      rw [NoteDarwer.drawNotes_eq, NoteDarwer.drawNotes_eq, NoteDarwer.drawNotes_eq,
        hx1, hy1, hz1]
      rfl
    · rw [List.append_nil, List.map_append, List.map_append, hx2, hy2, hz2,
        List.filter_reverse, List.filter_reverse, List.filter_reverse, List.append_assoc]

theorem NoteDarwer.rollRate_eq (pos : ℚ) :
    NoteDarwer.rollRate pos = max 0 (min 1 (pos / 400)) := by
  unfold NoteDarwer.rollRate
  dsimp only
  rw [sub_zero]
  by_cases h1 : pos / 400 > 1
  · rw [if_pos h1, if_neg (by norm_num), min_eq_left h1.le, max_eq_right (by norm_num)]
  · rw [if_neg h1, min_eq_right (not_lt.mp h1)]
    by_cases h0 : pos / 400 < 0
    · rw [if_pos h0, max_eq_left h0.le]
    · rw [if_neg h0, max_eq_right (not_lt.mp h0)]

theorem NoteDarwer.rollRate_mono (pos1 pos2 : ℚ) (h : pos1 ≤ pos2) :
    NoteDarwer.rollRate pos1 ≤ NoteDarwer.rollRate pos2 := by
  rw [NoteDarwer.rollRate_eq, NoteDarwer.rollRate_eq]
  apply max_le_max le_rfl
  apply min_le_min le_rfl
  exact div_le_div_of_nonneg_right h (by norm_num)

/-- C18 (the claim fails). A roll scheduled at time 400 with speed 1 is drawn with
the alpha multiplier `1` at clock time 0 (position 400) and `1/2` at clock time
200 (position 200): the opacity decreases while the note approaches. -/
theorem C18_roll_head_fades_out :
    NoteDarwer.drawNote sampleDrawConsts ⟨0, 0, 0, 0⟩ 1 sampleHead
      = some [{ note := sampleHead, size := 0, color := 0, overlay := 0, pos := 400,
                alpha := 1 }] ∧
    NoteDarwer.drawNote sampleDrawConsts ⟨200, 0, 0, 0⟩ 1 sampleHead
      = some [{ note := sampleHead, size := 0, color := 0, overlay := 0, pos := 200,
                alpha := 1 / 2 }] ∧
    ¬ (NoteDarwer.rollRate (sampleDrawConsts.NotePosition sampleHead 0)
        ≤ NoteDarwer.rollRate (sampleDrawConsts.NotePosition sampleHead 200)) := by
  have h0 : sampleDrawConsts.NotePosition sampleHead 0 = 400 := by
    norm_num [sampleDrawConsts, Note.specPosition, sampleHead, wrap64]
  have h2 : sampleDrawConsts.NotePosition sampleHead 200 = 200 := by
    norm_num [sampleDrawConsts, Note.specPosition, sampleHead, wrap64]
  have hs : arrayIndex 2 sampleHead.Size = some 0 := rfl
  have hc : arrayIndex 4 sampleHead.Color = some 0 := rfl
  have ho : arrayIndex 2 (0 : Int) = some 0 := rfl
  refine ⟨?_, ?_, by rw [h0, h2]; norm_num [NoteDarwer.rollRate]⟩
  · unfold NoteDarwer.drawNote
    dsimp only
    rw [h0, hs, hc, ho]
    norm_num [culled, sampleDrawConsts, NoteDarwer.alpha, NoteDarwer.rollRate]
  · unfold NoteDarwer.drawNote
    dsimp only
    rw [h2, hs, hc, ho]
    norm_num [culled, sampleDrawConsts, NoteDarwer.alpha, NoteDarwer.rollRate]

/-- C18 (amended). A roll that `NoteDarwer.Draw` draws has the alpha multiplier
`clamp(pos/400, 0, 1)`: it lies in `[0, 1]`, is `1` for `pos ≥ 400` and `0` for
`pos ≤ 0`, and is non-decreasing in the position; with the position of the spec,
a positive speed and no `int64` overflow, it is non-increasing while the clock
advances. -/
theorem C18_roll_alpha (e : DrawConsts) (d : NoteDarwer) (n : Note)
    (hO : d.Overlay = 0 ∨ d.Overlay = 1)
    (hn : (0 ≤ n.Size ∧ n.Size < 2) ∧ (0 ≤ n.Color ∧ n.Color < 4)) :
    (∃ calls, NoteDarwer.drawNote e d 1 n = some calls ∧
      ∀ x ∈ calls, x.alpha = max 0 (min 1 (e.NotePosition n d.Time / 400)) ∧
        0 ≤ x.alpha ∧ x.alpha ≤ 1) ∧
    (∀ pos : ℚ, NoteDarwer.rollRate pos = max 0 (min 1 (pos / 400))) ∧
    (∀ pos : ℚ, 400 ≤ pos → NoteDarwer.rollRate pos = 1) ∧
    (∀ pos : ℚ, pos ≤ 0 → NoteDarwer.rollRate pos = 0) ∧
    (∀ pos1 pos2 : ℚ, pos1 ≤ pos2 → NoteDarwer.rollRate pos1 ≤ NoteDarwer.rollRate pos2) ∧
    (∀ t1 t2 : Int, 0 < n.Speed → t1 ≤ t2 →
      (-2 ^ 63 ≤ n.Time - t2 ∧ n.Time - t1 < 2 ^ 63) →
      NoteDarwer.rollRate (n.specPosition t2) ≤ NoteDarwer.rollRate (n.specPosition t1)) := by
  refine ⟨?_, NoteDarwer.rollRate_eq, ?_, ?_, NoteDarwer.rollRate_mono, ?_⟩
  · obtain ⟨calls, h1, _, h3⟩ := NoteDarwer.drawNote_of_valid e d 1 n hO hn
    refine ⟨calls, h1, ?_⟩
    intro x hx
    have ha : x.alpha = max 0 (min 1 (e.NotePosition n d.Time / 400)) := by
      rw [(h3 x hx).2]
      exact NoteDarwer.rollRate_eq _
    refine ⟨ha, ?_, ?_⟩
    · rw [ha]; exact le_max_left _ _
    · rw [ha]; exact max_le (by norm_num) (min_le_left _ _)
  · intro pos h
    rw [NoteDarwer.rollRate_eq, min_eq_left (by linarith), max_eq_right (by norm_num)]
  · intro pos h
    rw [NoteDarwer.rollRate_eq]
    apply max_eq_left
    exact le_trans (min_le_right _ _) (by linarith)
  · intro t1 t2 hs ht hr
    apply NoteDarwer.rollRate_mono
    unfold Note.specPosition
    rw [wrap64_of_range _ (by omega) (by omega), wrap64_of_range _ (by omega) (by omega)]
    apply mul_le_mul_of_nonneg_left _ hs.le
    exact_mod_cast (by omega : n.Time - t2 ≤ n.Time - t1)

/-- Witness of C18 (amended): the roll `sampleHead` at clock time 200. -/
theorem C18_roll_alpha_witness :
    ∃ calls, NoteDarwer.drawNote sampleDrawConsts ⟨200, 0, 0, 0⟩ 1 sampleHead = some calls ∧
      ∀ x ∈ calls,
        x.alpha = max 0 (min 1 (sampleDrawConsts.NotePosition sampleHead 200 / 400)) ∧
        0 ≤ x.alpha ∧ x.alpha ≤ 1 :=
  (C18_roll_alpha sampleDrawConsts ⟨200, 0, 0, 0⟩ sampleHead (Or.inl rfl) (by decide)).1

/-- C19 (the code at a failing input). A dancer whose modes have no sprite: the
`Update` returns with `Frame = 0`, and `Draw` then indexes the empty slice
`Sprites[Mode]` at `0`, which panics. -/
theorem C19_empty_sprites_draw_panics :
    ∃ d', DancerDrawer.Update sampleConsts { sampleDancer with Sprites := fun _ => [] }
        1000 120 false false 0 false = some d' ∧
      d'.Frame = 0 ∧ (∀ m : Fin 4, (d'.Sprites m).length = 0) ∧ d'.Draw = none := by
  obtain ⟨m, hm⟩ := DancerDrawer.Update.switch_index sampleConsts
    { ({ sampleDancer with Sprites := fun _ => [] } : DancerDrawer) with
      Time := 1000, Duration := 4 * 60000 / sampleConsts.ScaledBPM 120 }
    false false 0 false (by decide) (by decide)
  obtain ⟨d', h1, h2, _, _, h5, _, h7⟩ := DancerDrawer.Update_eq sampleConsts
    { sampleDancer with Sprites := fun _ => [] } 1000 120 false false 0 false m hm
  have hm' : arrayIndex 4 d'.Mode = some m := h2 ▸ hm
  have hF : d'.Frame = 0 := by
    rw [h7, h5]
    simp [floatToInt]
  refine ⟨d', h1, hF, fun k => by rw [h5]; rfl, ?_⟩
  unfold DancerDrawer.Draw
  rw [hm', h5, hF]
  rfl

theorem roundHalfEven_of_near (q : ℚ) (n : Int) (h1 : (n : ℚ) - 1 / 2 < q)
    (h2 : q < (n : ℚ) + 1 / 2) : roundHalfEven q = n := by
  unfold roundHalfEven
  dsimp only
  by_cases hq : (n : ℚ) ≤ q
  · have hf : ⌊q⌋ = n := by
      rw [Int.floor_eq_iff]
      exact ⟨hq, by linarith⟩
    rw [hf, if_pos (by linarith)]
  · have hf : ⌊q⌋ = n - 1 := by
      rw [Int.floor_eq_iff]
      push_cast
      exact ⟨by linarith, by linarith [not_le.mp hq]⟩
    rw [hf, if_neg (by push_cast; linarith), if_pos (by push_cast; linarith)]
    ring

theorem round64_of_binade (q : ℚ) (e n : Int) (he : -1022 ≤ e)
    (h1 : (2 : ℚ) ^ e ≤ |q|) (h2 : |q| < (2 : ℚ) ^ (e + 1))
    (hn1 : (n : ℚ) - 1 / 2 < q / 2 ^ (e - 52)) (hn2 : q / 2 ^ (e - 52) < (n : ℚ) + 1 / 2) :
    round64 q = (n : ℚ) * 2 ^ (e - 52) := by
  have hpos : (0 : ℚ) < |q| := lt_of_lt_of_le (zpow_pos (by norm_num) e) h1
  have hq : q ≠ 0 := abs_pos.mp hpos
  have hlog : Int.log 2 |q| = e := by
    apply le_antisymm
    · have := (Int.lt_zpow_iff_log_lt (b := 2) (by norm_num) hpos (x := e + 1)).mp
        (by exact_mod_cast h2)
      omega
    · exact (Int.zpow_le_iff_le_log (b := 2) (by norm_num) hpos).mp (by exact_mod_cast h1)
  unfold round64
  rw [if_neg hq]
  dsimp only
  rw [hlog, max_eq_left he, roundHalfEven_of_near _ n hn1 hn2]


theorem round64_of_pos (q : ℚ) (e n : Int) (he : -1022 ≤ e)
    (h1 : (2 : ℚ) ^ e ≤ q) (h2 : q < (2 : ℚ) ^ (e + 1))
    (hn1 : (n : ℚ) - 1 / 2 < q / 2 ^ (e - 52)) (hn2 : q / 2 ^ (e - 52) < (n : ℚ) + 1 / 2) :
    round64 q = (n : ℚ) * 2 ^ (e - 52) := by
  have hq : 0 < q := lt_of_lt_of_le (zpow_pos (by norm_num) e) h1
  exact round64_of_binade q e n he (by rwa [abs_of_pos hq]) (by rwa [abs_of_pos hq]) hn1 hn2

theorem round64_of_neg (q : ℚ) (e n : Int) (he : -1022 ≤ e)
    (h1 : (2 : ℚ) ^ e ≤ -q) (h2 : -q < (2 : ℚ) ^ (e + 1))
    (hn1 : (n : ℚ) - 1 / 2 < q / 2 ^ (e - 52)) (hn2 : q / 2 ^ (e - 52) < (n : ℚ) + 1 / 2) :
    round64 q = (n : ℚ) * 2 ^ (e - 52) := by
  have hq : q < 0 := by
    have := lt_of_lt_of_le (zpow_pos (by norm_num : (0 : ℚ) < 2) e) h1
    linarith
  exact round64_of_binade q e n he (by rwa [abs_of_neg hq]) (by rwa [abs_of_neg hq]) hn1 hn2

/-- C2 (the code at failing inputs). With the `float64` rounding of every
operation, the picture 25x25 on the screen 7x7 gets the ratio `fl(7/25)`, the
scaled size `7 + 2^-50` on both axes, above the screen's 7, and the translation
`-2^-51` on both axes, below 0; the picture 1920x1080 on the screen 1000x1080 gets
the scaled width `1000 + 2^-43` and the horizontal translation `-2^-44`. -/
theorem C2_rounded_size_exceeds_screen :
    BackgroundOp.ratio64 ⟨7, 7⟩ ⟨25, 25⟩ = 1261007895663739 / 4503599627370496 ∧
    BackgroundOp.size64 ⟨7, 7⟩ ⟨25, 25⟩ = (7 + 1 / 2 ^ 50, 7 + 1 / 2 ^ 50) ∧
    BackgroundOp.translate64 ⟨7, 7⟩ ⟨25, 25⟩ = (-(1 / 2 ^ 51), -(1 / 2 ^ 51)) ∧
    ((7 : Int) : ℚ) < (BackgroundOp.size64 ⟨7, 7⟩ ⟨25, 25⟩).1 ∧
    (BackgroundOp.translate64 ⟨7, 7⟩ ⟨25, 25⟩).1 < 0 ∧
    (BackgroundOp.ratio64 ⟨1000, 1080⟩ ⟨1920, 1080⟩ = 4691249611844267 / 9007199254740992 ∧
      (BackgroundOp.size64 ⟨1000, 1080⟩ ⟨1920, 1080⟩).1 = 1000 + 1 / 2 ^ 43 ∧
      (BackgroundOp.translate64 ⟨1000, 1080⟩ ⟨1920, 1080⟩).1 = -(1 / 2 ^ 44)) := by
  have r7 : round64 7 = 7 := by
    have h := round64_of_pos 7 2 7881299347898368 (by norm_num)
      (by norm_num) (by norm_num) (by norm_num) (by norm_num)
    norm_num at h ⊢
    exact h
  have r25 : round64 25 = 25 := by
    have h := round64_of_pos 25 4 7036874417766400 (by norm_num)
      (by norm_num) (by norm_num) (by norm_num) (by norm_num)
    norm_num at h ⊢
    exact h
  have rx : round64 (7 / 25) = 1261007895663739 / 4503599627370496 := by
    have h := round64_of_pos (7 / 25) (-2) 5044031582654956 (by norm_num)
      (by norm_num) (by norm_num) (by norm_num) (by norm_num)
    norm_num at h ⊢
    exact h
  have x : round64 (25 * (1261007895663739 / 4503599627370496))
      = 7881299347898369 / 1125899906842624 := by
    have h := round64_of_pos (25 * (1261007895663739 / 4503599627370496)) 2 7881299347898369
      (by norm_num) (by norm_num) (by norm_num) (by norm_num) (by norm_num)
    norm_num at h ⊢
    exact h
  have dx : round64 (7 - 7881299347898369 / 1125899906842624) = -1 / 1125899906842624 := by
    have h := round64_of_neg (7 - 7881299347898369 / 1125899906842624) (-50)
      (-4503599627370496) (by norm_num) (by norm_num) (by norm_num) (by norm_num) (by norm_num)
    norm_num at h ⊢
    exact h
  have tx : round64 (-1 / 1125899906842624 / 2) = -1 / 2251799813685248 := by
    have h := round64_of_neg (-1 / 1125899906842624 / 2) (-51)
      (-4503599627370496) (by norm_num) (by norm_num) (by norm_num) (by norm_num) (by norm_num)
    norm_num at h ⊢
    exact h
  have hratio : BackgroundOp.ratio64 ⟨7, 7⟩ ⟨25, 25⟩ = 1261007895663739 / 4503599627370496 := by
    simp only [BackgroundOp.ratio64, Int.cast_ofNat, r7, r25, rx]
    norm_num
  have hsize : BackgroundOp.size64 ⟨7, 7⟩ ⟨25, 25⟩
      = (7881299347898369 / 1125899906842624, 7881299347898369 / 1125899906842624) := by
    simp only [BackgroundOp.size64, hratio, Int.cast_ofNat, r25, x]
  have htr : BackgroundOp.translate64 ⟨7, 7⟩ ⟨25, 25⟩
      = (-1 / 2251799813685248, -1 / 2251799813685248) := by
    simp only [BackgroundOp.translate64, hsize, Int.cast_ofNat, r7, dx, tx]
  refine ⟨hratio, ?_, ?_, ?_, ?_, ?_⟩
  · rw [hsize]; norm_num
  · rw [htr]; norm_num
  · rw [hsize]; norm_num
  · rw [htr]; norm_num
  · have r1920 : round64 1920 = 1920 := by
      have h := round64_of_pos 1920 10 8444249301319680 (by norm_num)
        (by norm_num) (by norm_num) (by norm_num) (by norm_num)
      norm_num at h ⊢
      exact h
    have r1080 : round64 1080 = 1080 := by
      have h := round64_of_pos 1080 10 4749890231992320 (by norm_num)
        (by norm_num) (by norm_num) (by norm_num) (by norm_num)
      norm_num at h ⊢
      exact h
    have r1000 : round64 1000 = 1000 := by
      have h := round64_of_pos 1000 9 8796093022208000 (by norm_num)
        (by norm_num) (by norm_num) (by norm_num) (by norm_num)
      norm_num at h ⊢
      exact h
    have qx : round64 (1000 / 1920) = 4691249611844267 / 9007199254740992 := by
      have h := round64_of_pos (1000 / 1920) (-1) 4691249611844267 (by norm_num)
        (by norm_num) (by norm_num) (by norm_num) (by norm_num)
      norm_num at h ⊢
      exact h
    have qy : round64 (1080 / 1080) = 1 := by
      have h := round64_of_pos (1080 / 1080) 0 4503599627370496 (by norm_num)
        (by norm_num) (by norm_num) (by norm_num) (by norm_num)
      norm_num at h ⊢
      exact h
    have x2 : round64 (1920 * (4691249611844267 / 9007199254740992))
        = 8796093022208001 / 8796093022208 := by
      have h := round64_of_pos (1920 * (4691249611844267 / 9007199254740992)) 9
        8796093022208001 (by norm_num) (by norm_num) (by norm_num) (by norm_num) (by norm_num)
      norm_num at h ⊢
      exact h
    have dx2 : round64 (1000 - 8796093022208001 / 8796093022208) = -1 / 8796093022208 := by
      have h := round64_of_neg (1000 - 8796093022208001 / 8796093022208) (-43)
        (-4503599627370496) (by norm_num) (by norm_num) (by norm_num) (by norm_num)
        (by norm_num)
      norm_num at h ⊢
      exact h
    have tx2 : round64 (-1 / 8796093022208 / 2) = -1 / 17592186044416 := by
      have h := round64_of_neg (-1 / 8796093022208 / 2) (-44)
        (-4503599627370496) (by norm_num) (by norm_num) (by norm_num) (by norm_num)
        (by norm_num)
      norm_num at h ⊢
      exact h
    have hratio2 : BackgroundOp.ratio64 ⟨1000, 1080⟩ ⟨1920, 1080⟩
        = 4691249611844267 / 9007199254740992 := by
      simp only [BackgroundOp.ratio64, Int.cast_ofNat, r1000, r1080, r1920, qx, qy]
      norm_num
    have hx2 : (BackgroundOp.size64 ⟨1000, 1080⟩ ⟨1920, 1080⟩).1
        = 8796093022208001 / 8796093022208 := by
      simp only [BackgroundOp.size64, hratio2, Int.cast_ofNat, r1920, x2]
    have htx2 : (BackgroundOp.translate64 ⟨1000, 1080⟩ ⟨1920, 1080⟩).1
        = -1 / 17592186044416 := by
      simp only [BackgroundOp.translate64, hx2, Int.cast_ofNat, r1000, dx2, tx2]
    refine ⟨hratio2, ?_, ?_⟩
    · rw [hx2]; norm_num
    · rw [htx2]; norm_num



/-- C17 (the code at a failing input). Two bars on screen are drawn by
`BarDrawer.Draw` in the order of the list, the bar of index 0 first, and not in
descending index order; two notes on screen are drawn by `NoteDarwer.Draw` in
descending index order, the note of index 1 first. -/
theorem C17_bars_not_reversed :
    (BarDrawer.Draw sampleDrawConsts ⟨0, [⟨100, 1⟩, ⟨200, 1⟩]⟩).map Prod.fst
      = [⟨100, 1⟩, ⟨200, 1⟩] ∧
    (BarDrawer.Draw sampleDrawConsts ⟨0, [⟨100, 1⟩, ⟨200, 1⟩]⟩).map Prod.fst
      ≠ ([(⟨100, 1⟩ : Bar), ⟨200, 1⟩].filter fun b =>
          decide (sampleDrawConsts.minPosition ≤ b.Speed * (wrap64 (b.Time - 0) : ℚ) ∧
            b.Speed * (wrap64 (b.Time - 0) : ℚ) ≤ sampleDrawConsts.maxPosition)).reverse ∧
    (∃ calls, NoteDarwer.Draw sampleDrawConsts ⟨0, 0, 0, 0⟩ ⟨[sampleHead, sampleRoll], [], []⟩
        = some calls ∧
      calls.map (fun x => x.note) = [sampleRoll, sampleHead]) := by
  have h1 : wrap64 100 = 100 := by decide
  have h2 : wrap64 200 = 200 := by decide
  refine ⟨?_, ?_, ?_⟩
  · rw [BarDrawer.Draw_eq_map_filter]
    norm_num [sampleDrawConsts, h1, h2, List.filter_cons]
  · rw [BarDrawer.Draw_eq_map_filter]
    norm_num [sampleDrawConsts, h1, h2, List.filter_cons]
  · obtain ⟨calls, g1, g2⟩ := (NoteDarwer.Draw_order sampleDrawConsts ⟨0, []⟩ ⟨0, 0, 0, 0⟩
      ⟨[sampleHead, sampleRoll], [], []⟩ (Or.inl rfl) (by decide)).2
    refine ⟨calls, g1, ?_⟩
    rw [g2]
    have p1 : sampleDrawConsts.NotePosition sampleHead 0 = 400 := by
      norm_num [sampleDrawConsts, Note.specPosition, sampleHead, wrap64]
    have p2 : sampleDrawConsts.NotePosition sampleRoll 0 = 600 := by
      norm_num [sampleDrawConsts, Note.specPosition, sampleRoll, wrap64]
    have c1 : culled sampleDrawConsts 400 = false := by
      norm_num [culled, sampleDrawConsts]
    have c2 : culled sampleDrawConsts 600 = false := by
      norm_num [culled, sampleDrawConsts]
    simp [List.filter_cons, p1, p2, c1, c2]

/-- C20 (the code at a failing input). For the picture 100x100 and the screen
200x200 the ratio is `1`, the scaled size is 100x100, and neither dimension is the
screen's, in exact arithmetic and with the `float64` rounding alike. -/
theorem C20_larger_screen_no_dimension_matches :
    BackgroundOp.ratio ⟨200, 200⟩ ⟨100, 100⟩ = 1 ∧
    BackgroundOp.size ⟨200, 200⟩ ⟨100, 100⟩ = (100, 100) ∧
    ¬ ((BackgroundOp.size ⟨200, 200⟩ ⟨100, 100⟩).1 = ((200 : Int) : ℚ) ∨
       (BackgroundOp.size ⟨200, 200⟩ ⟨100, 100⟩).2 = ((200 : Int) : ℚ)) ∧
    BackgroundOp.ratio64 ⟨200, 200⟩ ⟨100, 100⟩ = 1 ∧
    BackgroundOp.size64 ⟨200, 200⟩ ⟨100, 100⟩ = (100, 100) ∧
    ¬ ((BackgroundOp.size64 ⟨200, 200⟩ ⟨100, 100⟩).1 = ((200 : Int) : ℚ) ∨
       (BackgroundOp.size64 ⟨200, 200⟩ ⟨100, 100⟩).2 = ((200 : Int) : ℚ)) := by
  have hr : BackgroundOp.ratio ⟨200, 200⟩ ⟨100, 100⟩ = 1 := by
    norm_num [BackgroundOp.ratio]
  have h : BackgroundOp.size ⟨200, 200⟩ ⟨100, 100⟩ = (100, 100) := by
    norm_num [BackgroundOp.size, BackgroundOp.ratio]
  have r100 : round64 100 = 100 := by
    have h := round64_of_pos 100 6 7036874417766400 (by norm_num)
      (by norm_num) (by norm_num) (by norm_num) (by norm_num)
    norm_num at h ⊢
    exact h
  have r200 : round64 200 = 200 := by
    have h := round64_of_pos 200 7 7036874417766400 (by norm_num)
      (by norm_num) (by norm_num) (by norm_num) (by norm_num)
    norm_num at h ⊢
    exact h
  have q2 : round64 (200 / 100) = 2 := by
    have h := round64_of_pos (200 / 100) 1 4503599627370496 (by norm_num)
      (by norm_num) (by norm_num) (by norm_num) (by norm_num)
    norm_num at h ⊢
    exact h
  have hr64 : BackgroundOp.ratio64 ⟨200, 200⟩ ⟨100, 100⟩ = 1 := by
    simp only [BackgroundOp.ratio64, Int.cast_ofNat, r100, r200, q2]
    norm_num
  have h64 : BackgroundOp.size64 ⟨200, 200⟩ ⟨100, 100⟩ = (100, 100) := by
    simp only [BackgroundOp.size64, hr64, Int.cast_ofNat, r100, mul_one]
  refine ⟨hr, h, ?_, hr64, h64, ?_⟩
  · rw [h]; norm_num
  · rw [h64]; norm_num

end Gosu
